import Mathlib

/-! # Snake firmware: game core

A shallow embedding of the game logic of `src/snake/game.h` (with the constants of
`config.h`, the enumerations of `enums.h` and `Point2D` of `point2D.h`) and of the highscore
board of `src/snake/highscores.h`.

Conventions of the embedding.

* `byte` values are natural numbers below 256; every byte operation that can leave
  that range is written with an explicit `% 256`.
* `unsigned long` timestamps are natural numbers below `2 ^ 32`; their subtraction
  wraps modulo `2 ^ 32` (`sub32`).
* `int` values are integers.  Signed arithmetic is exact (C++ gives it no meaning
  when the exact result is not representable); a narrowing conversion to the 16-bit
  `int` of the AVR target is written `toInt16`.
* `gameMatrix` is the array's memory: 64 bytes in row-major order, `gameMatrix[x][y]`
  being the byte at offset `x * 8 + y`.
* Display, LCD and sound calls do not act on the game state and are left out, except the
  `setLed` calls of the aging pass, which `updateSnakeWholeBodyLeds` lists.
-/

namespace Snake

/-! ## config.h -/

abbrev MATRIX_SIZE : Nat := 8
abbrev INITIAL_SNAKE_NUMBER_OF_LIVES : Int := 3
abbrev STARVING_TIME_INTERVAL : Nat := 20000
abbrev INITIAL_SNAKE_LENGTH : Nat := 3
abbrev MAX_SNAKE_LENGTH : Nat := 64
abbrev MIN_SNAKE_SPEED : Int := 400
abbrev MAX_SNAKE_SPEED : Int := 1600
abbrev ASKING_FOR_NEW_FOOD_VALUE : Nat := 255
abbrev MIN_SCORE_VALUE : Int := 0
abbrev MAX_SCORE_VALUE : Int := 999
abbrev MIN_DIFFICULTY_LEVEL : Int := 1
abbrev MAX_DIFFICULTY_LEVEL : Int := 4

/-! ## Machine arithmetic -/

/-- Conversion of an integer to the 16-bit two's complement `int` of the target. -/
def toInt16 (v : Int) : Int := (v + 32768) % 65536 - 32768

/-- Conversion of an integer to `unsigned long` (32 bits). -/
def toU32 (v : Int) : Nat := (v % 4294967296).toNat

/-- Subtraction of two `unsigned long` values, `a - b` modulo `2 ^ 32`. -/
def sub32 (a b : Nat) : Nat := (a % 4294967296 + 4294967296 - b % 4294967296) % 4294967296

/-- Modelled from the spec: `map` is the Arduino core function (`WMath.cpp`), which is not
among the repository sources; the spec names it a linear rescale in integer arithmetic.
This is its published definition,
`return (x - in_min) * (out_max - out_min) / (in_max - in_min) + out_min;`
on `long` operands: the division truncates toward zero and nothing is clamped. -/
def map (x in_min in_max out_min out_max : Int) : Int :=
  Int.tdiv ((x - in_min) * (out_max - out_min)) (in_max - in_min) + out_min

/-! ## Score -/

/-- Score of `Game::getGameScoreValue(int snakeLength)`; `difficulty` is the byte
returned by `settings->getGameDifficulty()`.  The `long` result of `map` is returned as
an `int`. -/
def getGameScoreValue (difficulty : Nat) (snakeLength : Int) : Int :=
  toInt16 (map ((snakeLength - INITIAL_SNAKE_LENGTH) * difficulty)
    (INITIAL_SNAKE_LENGTH - INITIAL_SNAKE_LENGTH)
    ((MAX_SNAKE_LENGTH - INITIAL_SNAKE_LENGTH) * MAX_DIFFICULTY_LEVEL) MIN_SCORE_VALUE
    MAX_SCORE_VALUE)

/-- The clamped rescale the specification describes for the score:
`min(999, max(0, ((L - 3) * d * 999) / 244))` with truncating division. -/
def clampedScore (difficulty : Nat) (snakeLength : Int) : Int :=
  min 999 (max 0 (Int.tdiv ((snakeLength - 3) * difficulty * 999) 244))

/-! ## enums.h and point2D.h -/

/-- Reading of the joystick on the x axis (`enum class XDirection`). -/
inductive XDirection where
  | RIGHT
  | MIDDLE
  | LEFT
deriving DecidableEq, Repr

/-- Reading of the joystick on the y axis (`enum class YDirection`). -/
inductive YDirection where
  | UP
  | MIDDLE
  | DOWN
deriving DecidableEq, Repr

/-- The four movement directions (`enum class Direction`). -/
inductive Direction where
  | UP
  | LEFT
  | DOWN
  | RIGHT
deriving DecidableEq, Repr

/-- A point with two `byte` coordinates; `operator==` compares both. -/
structure Point2D where
  x : Nat
  y : Nat
deriving DecidableEq, Repr

/-! ## The game object -/

/-- The data members of `Game` that the game logic reads and writes, and the function-local
`static unsigned long lastPositionUpdateTimestamp` of `updateSnakePosition`. -/
structure Game where
  gameMatrix : List Nat
  snakeNumberOfLives : Int
  lostALife : Bool
  lastSnakeEatTimestamp : Nat
  lastSnakeDirection : Direction
  snakeDirection : Direction
  snakeSpeed : Int
  snakeLength : Nat
  snakeHead : Point2D
  food : Point2D
  hasGameEnded : Bool
  inTransition : Bool
  lastPositionUpdateTimestamp : Nat
deriving DecidableEq, Repr

/-- The wall test `x < 0 || y < 0 || x >= MATRIX_SIZE || y >= MATRIX_SIZE` on the (unsigned)
coordinates of a point, as written in `checkIfGameHasEnded` and `updateSnakeHeadPosition`. -/
def outsideGrid (p : Point2D) : Bool :=
  decide ((p.x : Int) < 0) || decide ((p.y : Int) < 0) || decide (p.x ≥ MATRIX_SIZE) ||
    decide (p.y ≥ MATRIX_SIZE)

/-- Offset of `gameMatrix[x][y]` in the array's memory. -/
def cellOffset (x y : Nat) : Nat := x * MATRIX_SIZE + y

/-- The read `gameMatrix[x][y]`.  When the offset falls past the 64 bytes of the array the
read yields `oob`, a byte of whatever lies behind the array. -/
def readMatrix (oob : Nat) (m : List Nat) (x y : Nat) : Nat :=
  if cellOffset x y < MATRIX_SIZE * MATRIX_SIZE then m.getD (cellOffset x y) 0 else oob

/-- The write `gameMatrix[x][y] = v` of a byte, used for in-grid coordinates only. -/
def writeMatrix (m : List Nat) (x y v : Nat) : List Nat :=
  m.set (cellOffset x y) (v % 256)

/-- A cell value is nonzero (the cell is occupied by the snake). -/
def nonzero (v : Nat) : Bool := decide (v ≠ 0)

/-- Number of cells of the grid holding a nonzero value. -/
def occupancy (m : List Nat) : Nat := (m.filter nonzero).length

/-- Body of `Game::initGame`; `now` is the value of `millis()`. -/
def initGame (difficulty : Nat) (now : Nat) (g : Game) : Game :=
  { g with
    gameMatrix :=
      (List.range 3).foldl (fun m i => writeMatrix m 5 i (i + 1))
        (List.replicate (MATRIX_SIZE * MATRIX_SIZE) 0)
    lastSnakeEatTimestamp := now
    snakeNumberOfLives := INITIAL_SNAKE_NUMBER_OF_LIVES
    lostALife := false
    snakeSpeed :=
      toInt16 (map difficulty MIN_DIFFICULTY_LEVEL MAX_DIFFICULTY_LEVEL MAX_SNAKE_SPEED
        MIN_SNAKE_SPEED)
    snakeLength := INITIAL_SNAKE_LENGTH
    snakeDirection := Direction.RIGHT
    snakeHead := ⟨5, 2⟩ }

/-- Body of `Game::checkSnakeStarvationStatus`; `now` is the value of `millis()`. -/
def checkSnakeStarvationStatus (now : Nat) (g : Game) : Game :=
  if sub32 now g.lastSnakeEatTimestamp ≥ STARVING_TIME_INTERVAL then
    { g with
      lastSnakeEatTimestamp := now
      lostALife := true
      snakeNumberOfLives := g.snakeNumberOfLives - 1 }
  else g

/-- Body of `Game::checkIfGameHasEnded`: three tests in sequence. -/
def checkIfGameHasEnded (g : Game) : Game :=
  let g1 := if outsideGrid g.snakeHead then { g with hasGameEnded := true, inTransition := true }
    else g
  let g2 := if g1.snakeLength > MATRIX_SIZE * MATRIX_SIZE then
      { g1 with hasGameEnded := true, inTransition := true }
    else g1
  if g2.snakeNumberOfLives ≤ 0 then { g2 with hasGameEnded := true, inTransition := true }
  else g2

/-- Body of `Game::checkSnakeAteHimself`. -/
def checkSnakeAteHimself (oob : Nat) (g : Game) : Game :=
  if readMatrix oob g.gameMatrix g.snakeHead.x g.snakeHead.y > 0 then
    { g with hasGameEnded := true, inTransition := true }
  else g

/-- Body of `Game::askForNewFood`. -/
def askForNewFood (g : Game) : Game :=
  { g with food := ⟨ASKING_FOR_NEW_FOOD_VALUE, ASKING_FOR_NEW_FOOD_VALUE⟩ }

/-- The `do ... while` loop of `Game::generateNewFood`.  Each element of `draws` is the
pair of values of `random()` behind the two calls `random(MATRIX_SIZE)` of one round
(`random(n)` is `random() % n`).  The result is `none` when the loop is still running
after all the draws given. -/
def generateNewFood : List (Nat × Nat) → Game → Option Game
  | [], _ => none
  | (rx, ry) :: rest, g =>
    let g1 := { g with food := ⟨rx % MATRIX_SIZE, ry % MATRIX_SIZE⟩ }
    if readMatrix 0 g1.gameMatrix g1.food.x g1.food.y > 0 then generateNewFood rest g1
    else some g1

/-- The increment `gameMatrix[i][j]++` of `checkSnakeAteFood`, applied to nonzero cells. -/
def growCell (v : Nat) : Nat := if v > 0 then (v + 1) % 256 else v

/-- The decrement `gameMatrix[i][j]--` of `updateSnakeWholeBody`, applied to nonzero
cells. -/
def ageCell (v : Nat) : Nat := if v > 0 then v - 1 else v

/-- Body of `Game::checkSnakeAteFood`; `now` is the value of `millis()`. -/
def checkSnakeAteFood (now : Nat) (g : Game) : Game :=
  if g.snakeHead = g.food then
    { askForNewFood
        { g with
          snakeLength := (g.snakeLength + 1) % 256
          gameMatrix := g.gameMatrix.map growCell } with
      lastSnakeEatTimestamp := now }
  else g

/-- Body of `Game::checkSnakeChangedDirection` on the two joystick readings. -/
def checkSnakeChangedDirection (xDirection : XDirection) (yDirection : YDirection)
    (g : Game) : Game :=
  let g1 :=
    if xDirection = XDirection.RIGHT ∧ yDirection = YDirection.MIDDLE ∧
        g.lastSnakeDirection ≠ Direction.LEFT then
      { g with snakeDirection := Direction.RIGHT }
    else if xDirection = XDirection.LEFT ∧ yDirection = YDirection.MIDDLE ∧
        g.lastSnakeDirection ≠ Direction.RIGHT then
      { g with snakeDirection := Direction.LEFT }
    else if xDirection = XDirection.MIDDLE ∧ yDirection = YDirection.DOWN ∧
        g.lastSnakeDirection ≠ Direction.UP then
      { g with snakeDirection := Direction.DOWN }
    else if xDirection = XDirection.MIDDLE ∧ yDirection = YDirection.UP ∧
        g.lastSnakeDirection ≠ Direction.DOWN then
      { g with snakeDirection := Direction.UP }
    else g
  { g1 with lastSnakeDirection := g1.snakeDirection }

/-- The head after the `switch` of `updateSnakeHeadPosition`: one byte coordinate is
incremented or decremented, modulo 256. -/
def movedHead (d : Direction) (p : Point2D) : Point2D :=
  match d with
  | Direction.UP => { p with x := (p.x + 255) % 256 }
  | Direction.LEFT => { p with y := (p.y + 255) % 256 }
  | Direction.DOWN => { p with x := (p.x + 1) % 256 }
  | Direction.RIGHT => { p with y := (p.y + 1) % 256 }

/-- Body of `Game::updateSnakeHeadPosition`. -/
def updateSnakeHeadPosition (oob : Nat) (g : Game) : Game :=
  let g1 := { g with snakeHead := movedHead g.snakeDirection g.snakeHead }
  let g2 := checkSnakeAteHimself oob g1
  if !(outsideGrid g2.snakeHead) then
    { g2 with
      gameMatrix := writeMatrix g2.gameMatrix g2.snakeHead.x g2.snakeHead.y (g2.snakeLength + 1) }
  else g2

/-- Body of `Game::updateSnakeWholeBody`: its effect on the game object.  Its `setLed` calls
are listed by `updateSnakeWholeBodyLeds`. -/
def updateSnakeWholeBody (g : Game) : Game :=
  { g with gameMatrix := g.gameMatrix.map ageCell }

/-- The time gate of `updateSnakePosition`:
`currentTimestamp - lastPositionUpdateTimestamp >= snakeSpeed`, an unsigned comparison. -/
def moveGateOpen (tMove : Nat) (g : Game) : Bool :=
  decide (sub32 tMove g.lastPositionUpdateTimestamp ≥ toU32 g.snakeSpeed)

/-- Body of `Game::updateSnakePosition`; `tMove` and `tEat` are the values of `millis()` in
this function and in `checkSnakeAteFood`. -/
def updateSnakePosition (oob tMove tEat : Nat) (g : Game) : Game :=
  if moveGateOpen tMove g then
    { updateSnakeWholeBody (checkSnakeAteFood tEat (updateSnakeHeadPosition oob g)) with
      lastPositionUpdateTimestamp := tMove }
  else g

/-- What one call of `play()` receives from outside the game object: the joystick readings,
the result of `isSwitchPressed()`, the values of `millis()` at its call sites, the byte
behind an out-of-array read and the random draws offered to `generateNewFood`. -/
structure TickInput where
  xDirection : XDirection
  yDirection : YDirection
  switchPressed : Bool
  tInit : Nat
  tStarve : Nat
  tMove : Nat
  tEat : Nat
  oob : Nat
  draws : List (Nat × Nat)

/-- Outcome of one call of `play()`: the game object, the returned flag, the score handed
to `updateHighscores` (if that call was made) and the direction applied by
`updateSnakeHeadPosition` (if a movement step ran). -/
structure PlayResult where
  game : Game
  running : Bool
  savedScore : Option Int
  moved : Option Direction

/-- Body of `Game::play`.  The result is `none` when `generateNewFood` does not return
within the draws of the input. -/
def play (difficulty : Nat) (inp : TickInput) (g : Game) : Option PlayResult :=
  if g.hasGameEnded then
    -- playGameEndedTransition ends with `inTransition = false`
    let g1 := if g.inTransition then { g with inTransition := false } else g
    if inp.switchPressed then
      some
        { game := { g1 with hasGameEnded := false, inTransition := true }
          running := false
          savedScore := some (getGameScoreValue difficulty g1.snakeLength)
          moved := none }
    else some { game := g1, running := true, savedScore := none, moved := none }
  else
    -- playStartGameTransition ends with `inTransition = false`, then initGame runs
    let g1 := if g.inTransition then initGame difficulty inp.tInit { g with inTransition := false }
      else g
    let g2 := checkSnakeStarvationStatus inp.tStarve g1
    let g3 := checkIfGameHasEnded g2
    let fed :=
      if g3.food.x = ASKING_FOR_NEW_FOOD_VALUE ∨ g3.food.y = ASKING_FOR_NEW_FOOD_VALUE then
        generateNewFood inp.draws g3
      else some g3
    match fed with
    | none => none
    | some g4 =>
      let g5 := if g4.lostALife then { g4 with lostALife := false } else g4
      let g6 := checkSnakeChangedDirection inp.xDirection inp.yDirection g5
      some
        { game := updateSnakePosition inp.oob inp.tMove inp.tEat g6
          running := true
          savedScore := none
          moved := if moveGateOpen inp.tMove g6 then some g6.snakeDirection else none }

/-- Run `play()` once per input, in order, and collect the directions applied by the
movement steps that ran. -/
def playAll (difficulty : Nat) : List TickInput → Game → Option (Game × List Direction)
  | [], g => some (g, [])
  | inp :: rest, g =>
    match play difficulty inp g with
    | none => none
    | some r =>
      match playAll difficulty rest r.game with
      | none => none
      | some (g', ds) => some (g', r.moved.toList ++ ds)

/-- Two directions are exact opposites. -/
def opposite : Direction → Direction → Bool
  | Direction.RIGHT, Direction.LEFT => true
  | Direction.LEFT, Direction.RIGHT => true
  | Direction.UP, Direction.DOWN => true
  | Direction.DOWN, Direction.UP => true
  | _, _ => false

/-! ## Runs of the game -/

/-- The game object as constructed, before the first call of `play()`: the default member
initialisers of the class; the members without an initialiser are put to 0. -/
def bootGame : Game :=
  { gameMatrix := List.replicate (MATRIX_SIZE * MATRIX_SIZE) 0
    snakeNumberOfLives := 0
    lostALife := false
    lastSnakeEatTimestamp := 0
    lastSnakeDirection := Direction.RIGHT
    snakeDirection := Direction.RIGHT
    snakeSpeed := 0
    snakeLength := INITIAL_SNAKE_LENGTH
    snakeHead := ⟨0, 0⟩
    food := ⟨ASKING_FOR_NEW_FOOD_VALUE, ASKING_FOR_NEW_FOOD_VALUE⟩
    hasGameEnded := false
    inTransition := true
    lastPositionUpdateTimestamp := 0 }

/-- The game with a given latched direction and food position, as a movement tick finds
it. -/
def latched (dir : Direction) (food : Point2D) (g : Game) : Game :=
  { g with snakeDirection := dir, food := food }

/-- States reached from `initGame` by movement ticks: firings of `updateSnakePosition`
with any latched direction, any food position and any clock values. -/
inductive Reached : Game → Prop where
  | init (difficulty now : Nat) (g : Game) : Reached (initGame difficulty now g)
  | tick (g : Game) (dir : Direction) (food : Point2D) (oob tMove tEat : Nat) :
      Reached g → moveGateOpen tMove (latched dir food g) = true →
      Reached (updateSnakePosition oob tMove tEat (latched dir food g))

/-- States reached from `initGame` by movement ticks each of which leaves the head inside
the 8x8 grid. -/
inductive ReachedInside : Game → Prop where
  | init (difficulty now : Nat) (g : Game) : ReachedInside (initGame difficulty now g)
  | tick (g : Game) (dir : Direction) (food : Point2D) (oob tMove tEat : Nat) :
      ReachedInside g → moveGateOpen tMove (latched dir food g) = true →
      outsideGrid (updateSnakePosition oob tMove tEat (latched dir food g)).snakeHead = false →
      ReachedInside (updateSnakePosition oob tMove tEat (latched dir food g))

/-- The countdown encoding of the body: the grid has 64 cells and its nonzero values are
`1, 2, ..., snakeLength`, each once. -/
def Encoded (g : Game) : Prop :=
  g.gameMatrix.length = MATRIX_SIZE * MATRIX_SIZE ∧
    (g.gameMatrix.filter nonzero).Perm (List.range' 1 g.snakeLength)

/-- One movement tick to the right at clock value `t`, food unset. -/
def tickRight (t : Nat) (g : Game) : Game :=
  updateSnakePosition 0 t t
    (latched Direction.RIGHT ⟨ASKING_FOR_NEW_FOOD_VALUE, ASKING_FOR_NEW_FOOD_VALUE⟩ g)

/-- The state after `initGame` (difficulty 4) and six movement ticks to the right, 400 ms
apart: the head has gone from column 2 to column 8, past the right wall. -/
def wallExit : Game :=
  tickRight 2400 (tickRight 2000 (tickRight 1600 (tickRight 1200 (tickRight 800
    (tickRight 400 (initGame 4 0 bootGame))))))

/-- One call of `play()` with the given joystick readings, every `millis()` of the call
returning `t`; the switch is not pressed and the food draw is cell (0, 0). -/
def tickAt (x : XDirection) (y : YDirection) (t : Nat) : TickInput :=
  { xDirection := x, yDirection := y, switchPressed := false, tInit := t, tStarve := t,
    tMove := t, tEat := t, oob := 0, draws := [(0, 0)] }

/-- Four calls of `play()` at difficulty 4 (a movement step every 400 ms): the joystick is
centred at 5000 ms, pushed up at 5010 ms, pushed left at 5020 ms and centred again at
5400 ms. -/
def reversalTicks : List TickInput :=
  [tickAt XDirection.MIDDLE YDirection.MIDDLE 5000, tickAt XDirection.MIDDLE YDirection.UP 5010,
    tickAt XDirection.LEFT YDirection.MIDDLE 5020, tickAt XDirection.MIDDLE YDirection.MIDDLE 5400]

/-! ## Starvation checks in sequence -/

/-- The starvation check at time `now` takes a life: the lives after the check differ from
the lives before. -/
def losesLife (now : Nat) (g : Game) : Bool :=
  decide ((checkSnakeStarvationStatus now g).snakeNumberOfLives ≠ g.snakeNumberOfLives)

/-- Run `checkSnakeStarvationStatus` at each of the given clock values in order, nothing
else touching `lastSnakeEatTimestamp` in between (no food is eaten), and collect the clock
values of the checks that took a life. -/
def lifeLosses : List Nat → Game → List Nat
  | [], _ => []
  | t :: ts, g =>
    if losesLife t g then t :: lifeLosses ts (checkSnakeStarvationStatus t g)
    else lifeLosses ts (checkSnakeStarvationStatus t g)

/-! ## Display calls of the aging pass -/

/-- The calls `lcMatrix->setLed(i, j, gameMatrix[i][j] > 0)` of `updateSnakeWholeBody` in
loop order, as triples of row, column and state; the state is computed from the cell after
its decrement. -/
def updateSnakeWholeBodyLeds (g : Game) : List (Nat × Nat × Bool) :=
  (List.range MATRIX_SIZE).flatMap fun i =>
    (List.range MATRIX_SIZE).map fun j =>
      (i, j, decide (ageCell (readMatrix 0 g.gameMatrix i j) > 0))

/-! ## Direction requests -/

/-- The direction a joystick reading asks for, in the words of the specification: exactly
one axis is deflected and the other is centred. -/
def requestedDirection : XDirection → YDirection → Option Direction
  | XDirection.RIGHT, YDirection.MIDDLE => some Direction.RIGHT
  | XDirection.LEFT, YDirection.MIDDLE => some Direction.LEFT
  | XDirection.MIDDLE, YDirection.DOWN => some Direction.DOWN
  | XDirection.MIDDLE, YDirection.UP => some Direction.UP
  | _, _ => none

/-! ## Further runs of the game -/

/-- One call of `play()` at clock value `t` with the joystick centred, the given switch
result and the given draws for `generateNewFood`. -/
def tickDraw (t : Nat) (switchPressed : Bool) (draws : List (Nat × Nat)) : TickInput :=
  { xDirection := XDirection.MIDDLE, yDirection := YDirection.MIDDLE,
    switchPressed := switchPressed, tInit := t, tStarve := t, tMove := t, tEat := t, oob := 0,
    draws := draws }

/-- Nine calls of `play()` at difficulty 4 with the joystick centred throughout.  First
session: the food is drawn at (5, 5) and eaten by the third movement step, the next food is
drawn at (5, 1), the snake runs on through the right wall (head (5, 8) at 7000 ms) and the
game is flagged ended at 7010 ms.  At 7020 ms the end transition plays and the switch is
pressed.  At 12000 ms the next session starts. -/
def secondSessionTicks : List TickInput :=
  [tickDraw 5000 false [(5, 5)], tickDraw 5400 false [], tickDraw 5800 false [],
    tickDraw 6200 false [(5, 1)], tickDraw 6600 false [], tickDraw 7000 false [],
    tickDraw 7010 false [], tickDraw 7020 true [], tickDraw 12000 false []]

/-- The joystick reading that asks for a direction. -/
def joystickFor : Direction → XDirection × YDirection
  | Direction.UP => (XDirection.MIDDLE, YDirection.UP)
  | Direction.DOWN => (XDirection.MIDDLE, YDirection.DOWN)
  | Direction.LEFT => (XDirection.LEFT, YDirection.MIDDLE)
  | Direction.RIGHT => (XDirection.RIGHT, YDirection.MIDDLE)

/-- Calls of `play()` 400 ms apart, starting at clock value `t` with the head at `p`, that
steer the snake along the given directions: in each call the joystick asks for the next
direction and the draw offered to `generateNewFood` is the cell the head is about to enter,
so every movement step is a meal. -/
def feedTicks : Nat → Point2D → List Direction → List TickInput
  | _, _, [] => []
  | t, p, d :: ds =>
    { xDirection := (joystickFor d).1, yDirection := (joystickFor d).2, switchPressed := false,
      tInit := t, tStarve := t, tMove := t, tEat := t, oob := 0,
      draws := [((movedHead d p).x, (movedHead d p).y)] } ::
      feedTicks (t + 400) (movedHead d p) ds

/-- A path of 61 steps from the start head (5, 2) through every cell of the grid that the
start snake does not occupy. -/
def feastPath : List Direction :=
  [Direction.RIGHT, Direction.DOWN] ++ List.replicate 3 Direction.LEFT ++ [Direction.DOWN] ++
    List.replicate 7 Direction.RIGHT ++ [Direction.UP] ++ List.replicate 3 Direction.LEFT ++
    [Direction.UP] ++ List.replicate 3 Direction.RIGHT ++ [Direction.UP] ++
    List.replicate 7 Direction.LEFT ++ [Direction.UP] ++ List.replicate 7 Direction.RIGHT ++
    [Direction.UP] ++ List.replicate 7 Direction.LEFT ++ [Direction.UP] ++
    List.replicate 7 Direction.RIGHT ++ [Direction.UP] ++ List.replicate 7 Direction.LEFT

/-- The 61 calls of `play()` of a perfect game at difficulty 4: the first call at 5000 ms
starts the session, and every movement step along `feastPath` eats the food. -/
def feastTicks : List TickInput := feedTicks 5000 ⟨5, 2⟩ feastPath

/-- The game after the 61st meal of the perfect game: the snake has length 64 and fills the
grid, the head is at (0, 0) and the food has just been eaten (unset). -/
def fullGame : Game :=
  { gameMatrix :=
      [64, 63, 62, 61, 60, 59, 58, 57, 49, 50, 51, 52, 53, 54, 55, 56,
        48, 47, 46, 45, 44, 43, 42, 41, 33, 34, 35, 36, 37, 38, 39, 40,
        32, 31, 30, 29, 28, 27, 26, 25, 1, 2, 3, 4, 21, 22, 23, 24,
        8, 7, 6, 5, 20, 19, 18, 17, 9, 10, 11, 12, 13, 14, 15, 16]
    snakeNumberOfLives := 3
    lostALife := false
    lastSnakeEatTimestamp := 29000
    lastSnakeDirection := Direction.LEFT
    snakeDirection := Direction.LEFT
    snakeSpeed := 400
    snakeLength := MAX_SNAKE_LENGTH
    snakeHead := ⟨0, 0⟩
    food := ⟨ASKING_FOR_NEW_FOOD_VALUE, ASKING_FOR_NEW_FOOD_VALUE⟩
    hasGameEnded := false
    inTransition := false
    lastPositionUpdateTimestamp := 29000 }

/-- The state of the end-to-end scenario: `initGame` (difficulty 4, clock 0) followed by
the placement of the food at (5, 3). -/
def scenarioStart : Game :=
  latched Direction.RIGHT ⟨5, 3⟩ (initGame 4 0 bootGame)

/-! ## highscores.h -/

abbrev NUMBER_OF_HIGHSCORES_SAVED : Nat := 5

/-- An entry of the highscore board (`struct HighscoresData`): an `int` score and the player
name, a string of at most 6 characters. -/
structure HighscoresData where
  score : Int
  playerName : String
deriving DecidableEq, Repr

/-- The `while` loop of `Highscores::getNewHighscorePlace` from the current value of
`place`, with a bound on the number of rounds still to run. -/
def placeLoop (score : Int) (t : List HighscoresData) : Nat → Nat → Nat
  | 0, place => place
  | fuel + 1, place =>
    if place < NUMBER_OF_HIGHSCORES_SAVED then
      if score > (t.getD place ⟨0, ""⟩).score then place
      else placeLoop score t fuel (place + 1)
    else place

/-- Body of `Highscores::getNewHighscorePlace` on the board `t`.  `place` goes up by one in
every round, so the loop test is evaluated at most six times. -/
def getNewHighscorePlace (score : Int) (t : List HighscoresData) : Nat :=
  placeLoop score t (NUMBER_OF_HIGHSCORES_SAVED + 1) 0

/-- The loop `for (i = ...; i > placeIndex; i--) highscoresData[i] = highscoresData[i - 1]`
of `updateHighscores` from the current value of `i`; the assignment of an entry copies its
score and its name. -/
def shiftLoop (placeIndex : Nat) : Nat → List HighscoresData → List HighscoresData
  | 0, t => t
  | i + 1, t =>
    if i + 1 > placeIndex then shiftLoop placeIndex i (t.set (i + 1) (t.getD i ⟨0, ""⟩))
    else t

/-- Body of `Highscores::updateHighscores` on the board `t` (the copy to the EEPROM is left
out). -/
def updateHighscores (score : Int) (playerName : String) (t : List HighscoresData) :
    List HighscoresData :=
  if getNewHighscorePlace score t ≥ NUMBER_OF_HIGHSCORES_SAVED then t
  else
    (shiftLoop (getNewHighscorePlace score t) (NUMBER_OF_HIGHSCORES_SAVED - 1) t).set
      (getNewHighscorePlace score t) ⟨score, playerName⟩

/-- The board written by `Highscores::resetHighscores`. -/
def resetHighscores : List HighscoresData :=
  List.replicate NUMBER_OF_HIGHSCORES_SAVED ⟨0, "NO ONE"⟩

/-- The board is ordered by non-increasing score. -/
def orderedBoard (t : List HighscoresData) : Prop :=
  (t.map fun e => e.score).Pairwise fun a b => a ≥ b

/-- One call of `play()` together with the highscore board: the board is touched only by
the call `highscores->updateHighscores(score, settings->getPlayerName())`, when `play()`
makes it. -/
def playWithBoard (difficulty : Nat) (playerName : String) (inp : TickInput) (g : Game)
    (t : List HighscoresData) : Option (PlayResult × List HighscoresData) :=
  match play difficulty inp g with
  | none => none
  | some r =>
    match r.savedScore with
    | some score => some (r, updateHighscores score playerName t)
    | none => some (r, t)

/-! ## The movement step inside `play()` -/

/-- The indices `[snakeHead.x][snakeHead.y]` of the grid read that `checkSnakeAteHimself`
makes when `updateSnakeHeadPosition` runs on `g`: the `switch` has moved the head
already. -/
def selfCheckIndices (g : Game) : Point2D := movedHead g.snakeDirection g.snakeHead

/-- The game object that a call of `play()` on a running game hands to
`updateSnakePosition`: the body of `play()` up to and including
`checkSnakeChangedDirection`.  It is `none` on an ended game (no movement in that branch)
and when `generateNewFood` does not return. -/
def movementInput (difficulty : Nat) (inp : TickInput) (g : Game) : Option Game :=
  if g.hasGameEnded then none
  else
    let g1 := if g.inTransition then initGame difficulty inp.tInit { g with inTransition := false }
      else g
    let g2 := checkSnakeStarvationStatus inp.tStarve g1
    let g3 := checkIfGameHasEnded g2
    let fed :=
      if g3.food.x = ASKING_FOR_NEW_FOOD_VALUE ∨ g3.food.y = ASKING_FOR_NEW_FOOD_VALUE then
        generateNewFood inp.draws g3
      else some g3
    match fed with
    | none => none
    | some g4 =>
      let g5 := if g4.lostALife then { g4 with lostALife := false } else g4
      some (checkSnakeChangedDirection inp.xDirection inp.yDirection g5)

/-- Six calls of `play()` at difficulty 4 with the joystick centred, 400 ms apart from
5000 ms on, the food drawn at (0, 0): the snake runs straight to the right. -/
def wallTicks : List TickInput :=
  [tickDraw 5000 false [(0, 0)], tickDraw 5400 false [], tickDraw 5800 false [],
    tickDraw 6200 false [], tickDraw 6600 false [], tickDraw 7000 false []]

/-- The calls of `reversalTicks` (a first game that ends while heading LEFT) followed by a
call at 5410 ms in which the switch press is detected. -/
def staleTicks : List TickInput :=
  reversalTicks ++ [tickDraw 5410 true []]

/-! ## The body of the snake in the grid -/

/-- States reached from `initGame` by movement ticks in which the head stays inside the grid
and no self-collision occurs: the moved head is inside the 8x8 grid and the cell it lands on
reads 0 in the collision check. -/
inductive ReachedClear : Game → Prop where
  | init (difficulty now : Nat) (g : Game) : ReachedClear (initGame difficulty now g)
  | tick (g : Game) (dir : Direction) (food : Point2D) (oob tMove tEat : Nat) :
      ReachedClear g → moveGateOpen tMove (latched dir food g) = true →
      outsideGrid (movedHead dir g.snakeHead) = false →
      readMatrix oob g.gameMatrix (movedHead dir g.snakeHead).x (movedHead dir g.snakeHead).y
        = 0 →
      ReachedClear (updateSnakePosition oob tMove tEat (latched dir food g))

/-- Two cells of the grid, given by their offsets, are orthogonal neighbours: same row and
columns one apart, or same column and rows one apart. -/
def adjacentCells (i j : Nat) : Bool :=
  decide ((i / 8 = j / 8 ∧ (i % 8 + 1 = j % 8 ∨ j % 8 + 1 = i % 8)) ∨
    (i % 8 = j % 8 ∧ (i / 8 + 1 = j / 8 ∨ j / 8 + 1 = i / 8)))

/-- The head is inside the grid and its cell holds `snakeLength`. -/
def HeadOnTop (g : Game) : Prop :=
  g.snakeHead.x < 8 ∧ g.snakeHead.y < 8 ∧
    g.gameMatrix.getD (cellOffset g.snakeHead.x g.snakeHead.y) 0 = g.snakeLength

/-- Cells holding consecutive nonzero values are orthogonal neighbours. -/
def Contiguous (m : List Nat) : Prop :=
  ∀ i j v : Nat, i < 64 → j < 64 → 1 ≤ v → m.getD i 0 = v → m.getD j 0 = v + 1 →
    adjacentCells i j = true

/-! ## Score: auxiliary facts -/

/-- On a non-negative product the score is the plain quotient `p * 999 / 244`. -/
theorem getGameScoreValue_eq (d : Nat) (L : Int) (h3 : 3 ≤ L) (hb : (L - 3) * d ≤ 8000) :
    getGameScoreValue d L = (L - 3) * d * 999 / 244 := by
  have hp : 0 ≤ (L - 3) * (d : Int) := mul_nonneg (by omega) (by omega)
  unfold getGameScoreValue map toInt16
  simp only [MAX_SNAKE_LENGTH, INITIAL_SNAKE_LENGTH, MAX_DIFFICULTY_LEVEL, MIN_SCORE_VALUE,
    MAX_SCORE_VALUE]
  norm_num
  generalize (L - 3) * (d : Int) = p at hp hb ⊢
  rw [Int.tdiv_eq_ediv (by omega) (by norm_num)]
  omega

/-! ## Lists of cell values: auxiliary facts -/

theorem filter_set_perm (v : Nat) (hv : v ≠ 0) :
    ∀ (m : List Nat) (i : Nat), i < m.length → m.getD i 0 = 0 →
      ((m.set i v).filter nonzero).Perm (v :: m.filter nonzero) := by
  intro m
  induction m with
  | nil => intro i hi; simp at hi
  | cons a t ih =>
    intro i hi h0
    cases i with
    | zero =>
      simp only [List.getD_cons_zero] at h0
      subst h0
      simp [List.set, List.filter_cons, nonzero, hv]
    | succ j =>
      simp only [List.getD_cons_succ] at h0
      have hj : j < t.length := by simpa using hi
      have := ih j hj h0
      simp only [List.set_cons_succ, List.filter_cons]
      by_cases ha : nonzero a = true
      · simp only [ha, if_true]
        exact (List.Perm.cons a this).trans (List.Perm.swap v a _)
      · simp only [ha]
        simpa using this

theorem filter_map_filter (f : Nat → Nat) (hf : f 0 = 0) (m : List Nat) :
    (m.map f).filter nonzero = ((m.filter nonzero).map f).filter nonzero := by
  induction m with
  | nil => rfl
  | cons a t ih =>
    by_cases ha : a = 0
    · subst ha
      simp [List.filter_cons, nonzero, hf, ih]
    · have : nonzero a = true := by simp [nonzero, ha]
      simp only [List.map_cons, List.filter_cons, this, if_true, ih]

theorem filter_map_perm (f : Nat → Nat) (hf : f 0 = 0) (m R : List Nat)
    (h : (m.filter nonzero).Perm R) :
    ((m.map f).filter nonzero).Perm ((R.map f).filter nonzero) := by
  rw [filter_map_filter f hf m]
  exact (h.map f).filter nonzero

theorem map_ageCell_range' (n : Nat) : ∀ s : Nat,
    (List.range' (s + 1) n).map ageCell = List.range' s n := by
  induction n with
  | zero => intro s; rfl
  | succ k ih =>
    intro s
    rw [List.range'_succ, List.range'_succ, List.map_cons, ih (s + 1)]
    simp [ageCell]

theorem map_growCell_range' (s n : Nat) (h : s + n ≤ 255) (hs : 0 < s) :
    (List.range' s n).map growCell = List.range' (s + 1) n := by
  have h1 : (List.range' s n).map growCell = (List.range' s n).map (fun x => 1 + x) := by
    apply List.map_congr_left
    intro a ha
    rw [List.mem_range'_1] at ha
    have : a + 1 < 256 := by omega
    simp only [growCell]
    rw [if_pos (by omega), Nat.mod_eq_of_lt this]
    omega
  rw [h1, List.map_add_range', Nat.add_comm]

theorem filter_nonzero_range' (s n : Nat) (hs : 0 < s) :
    (List.range' s n).filter nonzero = List.range' s n := by
  rw [List.filter_eq_self]
  intro a ha
  rw [List.mem_range'_1] at ha
  simp [nonzero]
  omega

theorem filter_nonzero_range'_zero (n : Nat) :
    (List.range' 0 (n + 1)).filter nonzero = List.range' 1 n := by
  rw [List.range'_succ, List.filter_cons]
  simp only [nonzero, ne_eq, not_true_eq_false, decide_False, Bool.false_eq_true, if_false]
  exact filter_nonzero_range' 1 n (by omega)

/-! ## Score: claims -/

/-- C5. Score range: for every length `L` in `[3, 64]` and difficulty `d` in `[1, 4]` the
score lies in `[0, 999]`; it is `0` at `L = 3` for every difficulty and `999` at `L = 64`,
`d = 4`. -/
theorem score_range (L d : Nat) (hL : 3 ≤ L ∧ L ≤ 64) (hd : 1 ≤ d ∧ d ≤ 4) :
    (0 ≤ getGameScoreValue d L ∧ getGameScoreValue d L ≤ 999) ∧
      (∀ d' : Nat, getGameScoreValue d' 3 = 0) ∧ getGameScoreValue 4 64 = 999 := by
  obtain ⟨hL3, hL64⟩ := hL
  obtain ⟨hd1, hd4⟩ := hd
  refine ⟨?_, ?_, ?_⟩
  · have hp0 : 0 ≤ ((L : Int) - 3) * (d : Int) := mul_nonneg (by omega) (by omega)
    have hp1 : ((L : Int) - 3) * (d : Int) ≤ 244 := by nlinarith
    rw [getGameScoreValue_eq d L (by omega) (by omega)]
    generalize ((L : Int) - 3) * (d : Int) = p at hp0 hp1
    omega
  · intro d'
    rw [getGameScoreValue_eq d' 3 (by norm_num) (by norm_num)]
    norm_num
  · rw [getGameScoreValue_eq 4 64 (by norm_num) (by norm_num)]
    norm_num

/-- Witness of C5: the theorem at length 10 and difficulty 2. -/
theorem score_range_witness :
    (0 ≤ getGameScoreValue 2 (10 : Nat) ∧ getGameScoreValue 2 (10 : Nat) ≤ 999) ∧
      (∀ d' : Nat, getGameScoreValue d' 3 = 0) ∧ getGameScoreValue 4 64 = 999 :=
  score_range 10 2 (by decide) (by decide)

/-- C6. Score monotonicity: for lengths `L ≤ L'` in `[3, 64]` and difficulties `d ≤ d'` in
`[1, 4]` the score at `(L, d)` is at most the score at `(L', d')`. -/
theorem score_monotone (L L' d d' : Nat) (hL : 3 ≤ L ∧ L ≤ L' ∧ L' ≤ 64)
    (hd : 1 ≤ d ∧ d ≤ d' ∧ d' ≤ 4) :
    getGameScoreValue d L ≤ getGameScoreValue d' L' := by
  obtain ⟨hL3, hLL, hL64⟩ := hL
  obtain ⟨hd1, hdd, hd4⟩ := hd
  have hp0 : 0 ≤ ((L : Int) - 3) * (d : Int) := mul_nonneg (by omega) (by omega)
  have hpp : ((L : Int) - 3) * (d : Int) ≤ ((L' : Int) - 3) * (d' : Int) :=
    mul_le_mul (by omega) (by omega) (by omega) (by omega)
  have hp1 : ((L' : Int) - 3) * (d' : Int) ≤ 244 := by nlinarith
  rw [getGameScoreValue_eq d L (by omega) (by omega),
    getGameScoreValue_eq d' L' (by omega) (by omega)]
  generalize ((L : Int) - 3) * (d : Int) = p at hp0 hpp
  generalize ((L' : Int) - 3) * (d' : Int) = q at hpp hp1
  omega

/-- Witness of C6: lengths 5 and 9, difficulties 1 and 3. -/
theorem score_monotone_witness :
    getGameScoreValue 1 (5 : Nat) ≤ getGameScoreValue 3 (9 : Nat) :=
  score_monotone 5 9 1 3 (by decide) (by decide)

/-- C7 (as stated, refuted). At snake length 65 and difficulty 4 the code returns 1015, and
at length 4 with a stored difficulty byte of 255 it returns 1044, while the clamped rescale
gives 999 in both cases: `getGameScoreValue` applies no clamp, so the equality does not hold
for every byte value of the length and of the difficulty. -/
theorem score_unclamped_at_65 :
    getGameScoreValue 4 65 = 1015 ∧ clampedScore 4 65 = 999 ∧
      getGameScoreValue 255 4 = 1044 ∧ clampedScore 255 4 = 999 ∧
      getGameScoreValue 4 65 ≠ clampedScore 4 65 := by
  have h1 : getGameScoreValue 4 65 = 1015 := by
    rw [getGameScoreValue_eq 4 65 (by norm_num) (by norm_num)]
    norm_num
  have h2 : clampedScore 4 65 = 999 := by
    unfold clampedScore
    norm_num
    decide
  have h3 : getGameScoreValue 255 4 = 1044 := by
    rw [getGameScoreValue_eq 255 4 (by norm_num) (by norm_num)]
    norm_num
  have h4 : clampedScore 255 4 = 999 := by
    unfold clampedScore
    norm_num
    decide
  refine ⟨h1, h2, h3, h4, ?_⟩
  rw [h1, h2]
  decide

/-- C7 (amended). Score formula: for every snake length `L` in `[3, 64]` and every difficulty
`d` in `[1, 4]`, `getGameScoreValue(L)` is `((L - 3) * d * 999) / 244` with truncating integer
division, and this equals the clamped linear rescale
`min(999, max(0, ((L - 3) * d * 999) / 244))`: on that range the clamp never acts. -/
theorem score_formula (L d : Nat) (hL : 3 ≤ L ∧ L ≤ 64) (hd : 1 ≤ d ∧ d ≤ 4) :
    getGameScoreValue d L = Int.tdiv (((L : Int) - 3) * d * 999) 244 ∧
      getGameScoreValue d L = clampedScore d L := by
  obtain ⟨hL3, hL64⟩ := hL
  obtain ⟨hd1, hd4⟩ := hd
  have hp0 : 0 ≤ ((L : Int) - 3) * (d : Int) := mul_nonneg (by omega) (by omega)
  have hp1 : ((L : Int) - 3) * (d : Int) ≤ 244 := by nlinarith
  have hq : 0 ≤ ((L : Int) - 3) * (d : Int) * 999 := by omega
  have ht : Int.tdiv (((L : Int) - 3) * (d : Int) * 999) 244 =
      ((L : Int) - 3) * (d : Int) * 999 / 244 := Int.tdiv_eq_ediv hq (by norm_num)
  have hv : getGameScoreValue d L = ((L : Int) - 3) * (d : Int) * 999 / 244 :=
    getGameScoreValue_eq d L (by omega) (by omega)
  refine ⟨by rw [hv, ht], ?_⟩
  unfold clampedScore
  rw [hv, ht]
  generalize ((L : Int) - 3) * (d : Int) = p at hp0 hp1
  omega

/-- Witness of C7 (amended): the theorem at length 10 and difficulty 2. -/
theorem score_formula_witness :
    getGameScoreValue 2 (10 : Nat) = Int.tdiv ((((10 : Nat) : Int) - 3) * (2 : Nat) * 999) 244 ∧
      getGameScoreValue 2 (10 : Nat) = clampedScore 2 (10 : Nat) :=
  score_formula 10 2 (by decide) (by decide)

/-! ## Movement ticks: auxiliary facts -/

theorem outsideGrid_eq_false (p : Point2D) :
    outsideGrid p = false ↔ p.x < 8 ∧ p.y < 8 := by
  simp [outsideGrid]

theorem outsideGrid_eq_true (p : Point2D) :
    outsideGrid p = true ↔ 8 ≤ p.x ∨ 8 ≤ p.y := by
  have h := outsideGrid_eq_false p
  cases hb : outsideGrid p
  · have := h.1 hb
    constructor
    · intro hc
      exact Bool.noConfusion hc
    · intro hc
      omega
  · constructor
    · intro _
      by_contra hc
      have := h.2 (by omega)
      rw [hb] at this
      exact Bool.noConfusion this
    · intro _
      rfl

theorem readMatrix_inside (oob : Nat) (m : List Nat) (x y : Nat) (hx : x < 8) (hy : y < 8) :
    readMatrix oob m x y = m.getD (cellOffset x y) 0 := by
  unfold readMatrix cellOffset
  rw [if_pos (by simp only [MATRIX_SIZE]; omega)]

/-- The head after a movement tick is the moved head. -/
theorem updateSnakePosition_head (oob tMove tEat : Nat) (g : Game)
    (hopen : moveGateOpen tMove g = true) :
    (updateSnakePosition oob tMove tEat g).snakeHead = movedHead g.snakeDirection g.snakeHead := by
  simp only [updateSnakePosition, hopen, if_true, updateSnakeWholeBody, checkSnakeAteFood,
    updateSnakeHeadPosition, checkSnakeAteHimself, askForNewFood]
  split_ifs <;> rfl

/-- A movement tick never clears `hasGameEnded`, and sets it when the cell under the moved
head reads nonzero. -/
theorem updateSnakePosition_ended (oob tMove tEat : Nat) (g : Game)
    (hopen : moveGateOpen tMove g = true)
    (h : g.hasGameEnded = true ∨
      readMatrix oob g.gameMatrix (movedHead g.snakeDirection g.snakeHead).x
        (movedHead g.snakeDirection g.snakeHead).y > 0) :
    (updateSnakePosition oob tMove tEat g).hasGameEnded = true := by
  simp only [updateSnakePosition, hopen, if_true, updateSnakeWholeBody, checkSnakeAteFood,
    updateSnakeHeadPosition, checkSnakeAteHimself, askForNewFood]
  rcases h with h | h
  · split_ifs <;> simp [h]
  · split_ifs <;> simp

/-- The grid and length after a movement tick onto a free in-grid cell. -/
theorem updateSnakePosition_free (oob tMove tEat : Nat) (g : Game)
    (hopen : moveGateOpen tMove g = true)
    (hin : outsideGrid (movedHead g.snakeDirection g.snakeHead) = false)
    (hfree : readMatrix oob g.gameMatrix (movedHead g.snakeDirection g.snakeHead).x
        (movedHead g.snakeDirection g.snakeHead).y = 0) :
    ((updateSnakePosition oob tMove tEat g).gameMatrix =
        ((writeMatrix g.gameMatrix (movedHead g.snakeDirection g.snakeHead).x
          (movedHead g.snakeDirection g.snakeHead).y (g.snakeLength + 1)).map growCell).map
            ageCell ∧
      (updateSnakePosition oob tMove tEat g).snakeLength = (g.snakeLength + 1) % 256) ∨
    ((updateSnakePosition oob tMove tEat g).gameMatrix =
        (writeMatrix g.gameMatrix (movedHead g.snakeDirection g.snakeHead).x
          (movedHead g.snakeDirection g.snakeHead).y (g.snakeLength + 1)).map ageCell ∧
      (updateSnakePosition oob tMove tEat g).snakeLength = g.snakeLength) := by
  simp only [updateSnakePosition, hopen, if_true, updateSnakeWholeBody, checkSnakeAteFood,
    updateSnakeHeadPosition, checkSnakeAteHimself, askForNewFood, hfree, hin,
    gt_iff_lt, lt_irrefl, if_false, Bool.not_false]
  split_ifs
  · left; exact ⟨rfl, rfl⟩
  · right; exact ⟨rfl, rfl⟩

/-- A movement tick that leaves the head inside the grid and the game not ended keeps the
countdown encoding of the body. -/
theorem updateSnakePosition_encoded (oob tMove tEat : Nat) (g : Game) (hE : Encoded g)
    (hopen : moveGateOpen tMove g = true)
    (hin : outsideGrid (updateSnakePosition oob tMove tEat g).snakeHead = false)
    (hne : (updateSnakePosition oob tMove tEat g).hasGameEnded = false) :
    Encoded (updateSnakePosition oob tMove tEat g) := by
  obtain ⟨hlen0, hperm⟩ := hE
  have hlen : g.gameMatrix.length = 64 := hlen0
  rw [updateSnakePosition_head oob tMove tEat g hopen] at hin
  have hxy := (outsideGrid_eq_false _).1 hin
  have hfree : readMatrix oob g.gameMatrix (movedHead g.snakeDirection g.snakeHead).x
      (movedHead g.snakeDirection g.snakeHead).y = 0 := by
    by_contra hc
    have := updateSnakePosition_ended oob tMove tEat g hopen (Or.inr (Nat.pos_of_ne_zero hc))
    rw [this] at hne
    exact Bool.noConfusion hne
  have hL : g.snakeLength ≤ 64 := by
    have h1 := hperm.length_eq
    rw [List.length_range'] at h1
    have h2 := List.length_filter_le nonzero g.gameMatrix
    rw [hlen] at h2
    omega
  have hoff : cellOffset (movedHead g.snakeDirection g.snakeHead).x
      (movedHead g.snakeDirection g.snakeHead).y < g.gameMatrix.length := by
    rw [hlen]; unfold cellOffset; simp only [MATRIX_SIZE]; omega
  rw [readMatrix_inside oob _ _ _ hxy.1 hxy.2] at hfree
  have hstamp : ((writeMatrix g.gameMatrix (movedHead g.snakeDirection g.snakeHead).x
      (movedHead g.snakeDirection g.snakeHead).y (g.snakeLength + 1)).filter nonzero).Perm
      (List.range' 1 (g.snakeLength + 1)) := by
    unfold writeMatrix
    rw [Nat.mod_eq_of_lt (by omega : g.snakeLength + 1 < 256)]
    refine (filter_set_perm (g.snakeLength + 1) (by omega) _ _ hoff hfree).trans ?_
    have hc : List.range' 1 (g.snakeLength + 1) =
        List.range' 1 g.snakeLength ++ [g.snakeLength + 1] := by
      rw [List.range'_concat, Nat.one_mul, Nat.add_comm 1]
    rw [hc]
    exact ((List.perm_append_singleton _ _).trans
      (List.Perm.cons _ hperm.symm)).symm
  have hwlen : (writeMatrix g.gameMatrix (movedHead g.snakeDirection g.snakeHead).x
      (movedHead g.snakeDirection g.snakeHead).y (g.snakeLength + 1)).length = 64 := by
    unfold writeMatrix
    rw [List.length_set, hlen]
  rw [← readMatrix_inside oob _ _ _ hxy.1 hxy.2] at hfree
  rcases updateSnakePosition_free oob tMove tEat g hopen hin hfree with ⟨hm, hl⟩ | ⟨hm, hl⟩
  · refine ⟨by show _ = 64; rw [hm, List.length_map, List.length_map, hwlen], ?_⟩
    rw [hm, hl, Nat.mod_eq_of_lt (by omega : g.snakeLength + 1 < 256)]
    have h1 := filter_map_perm growCell (by simp [growCell]) _ _ hstamp
    rw [map_growCell_range' 1 _ (by omega) (by omega),
      filter_nonzero_range' 2 _ (by omega)] at h1
    have h2 := filter_map_perm ageCell (by simp [ageCell]) _ _ h1
    rw [map_ageCell_range', filter_nonzero_range' 1 _ (by omega)] at h2
    exact h2
  · refine ⟨by show _ = 64; rw [hm, List.length_map, hwlen], ?_⟩
    rw [hm, hl]
    have h2 := filter_map_perm ageCell (by simp [ageCell]) _ _ hstamp
    rw [map_ageCell_range', filter_nonzero_range'_zero] at h2
    exact h2

theorem initGame_encoded (difficulty now : Nat) (g : Game) :
    Encoded (initGame difficulty now g) :=
  ⟨rfl, List.Perm.refl _⟩

theorem latched_encoded (dir : Direction) (food : Point2D) (g : Game) (h : Encoded g) :
    Encoded (latched dir food g) := h

/-- Along movement ticks that keep the head inside the grid, a state not flagged ended
carries the countdown encoding. -/
theorem reachedInside_encoded (g : Game) (hr : ReachedInside g) :
    g.hasGameEnded = false → Encoded g := by
  induction hr with
  | init difficulty now g => intro _; exact initGame_encoded difficulty now g
  | tick g dir food oob tMove tEat _ hopen hin ih =>
    intro hne
    have hprev : g.hasGameEnded = false := by
      by_contra hc
      have h1 : (latched dir food g).hasGameEnded = true := by
        simpa [latched] using hc
      have := updateSnakePosition_ended oob tMove tEat _ hopen (Or.inl h1)
      rw [this] at hne
      exact Bool.noConfusion hne
    exact updateSnakePosition_encoded oob tMove tEat _
      (latched_encoded dir food g (ih hprev)) hopen hin hne

theorem encoded_occupancy (g : Game) (h : Encoded g) :
    occupancy g.gameMatrix = g.snakeLength := by
  unfold occupancy
  rw [h.2.length_eq, List.length_range']

theorem reached_tickRight (t : Nat) (g : Game) (h : Reached g)
    (hg : moveGateOpen t
      (latched Direction.RIGHT ⟨ASKING_FOR_NEW_FOOD_VALUE, ASKING_FOR_NEW_FOOD_VALUE⟩ g) = true) :
    Reached (tickRight t g) :=
  Reached.tick g _ _ 0 t t h hg

/-! ## Movement ticks: claims -/

/-- C1 (as stated, refuted). After `initGame` and six movement ticks to the right the head
has left the grid through the right wall (the read `gameMatrix[5][8]` of the collision
check falls on the byte of `gameMatrix[6][0]`, which is 0): the state is reached by
movement ticks, is not flagged ended, holds 2 nonzero cells and has `snakeLength = 3`. -/
theorem occupancy_differs_after_wall_exit :
    Reached wallExit ∧ wallExit.hasGameEnded = false ∧ wallExit.snakeHead = ⟨5, 8⟩ ∧
      occupancy wallExit.gameMatrix = 2 ∧ wallExit.snakeLength = 3 := by
  have h0 : Reached (initGame 4 0 bootGame) := Reached.init 4 0 bootGame
  have h1 := reached_tickRight 400 _ h0 (by decide)
  have h2 := reached_tickRight 800 _ h1 (by decide)
  have h3 := reached_tickRight 1200 _ h2 (by decide)
  have h4 := reached_tickRight 1600 _ h3 (by decide)
  have h5 := reached_tickRight 2000 _ h4 (by decide)
  have h6 := reached_tickRight 2400 _ h5 (by decide)
  exact ⟨h6, by decide, by decide, by decide, by decide⟩

/-- C1 (amended). Occupancy invariant: in every state reached from `initGame` by movement
ticks each of which leaves the head inside the 8x8 grid, as long as `hasGameEnded` is false
the number of nonzero grid cells equals `snakeLength`. -/
theorem occupancy_invariant (g : Game) (hr : ReachedInside g) (hne : g.hasGameEnded = false) :
    occupancy g.gameMatrix = g.snakeLength :=
  encoded_occupancy g (reachedInside_encoded g hr hne)

/-- Witness of C1 (amended): the state after `initGame` and one movement tick to the
right. -/
theorem occupancy_invariant_witness :
    ReachedInside (tickRight 400 (initGame 4 0 bootGame)) ∧
      (tickRight 400 (initGame 4 0 bootGame)).hasGameEnded = false ∧
      occupancy (tickRight 400 (initGame 4 0 bootGame)).gameMatrix =
        (tickRight 400 (initGame 4 0 bootGame)).snakeLength :=
  ⟨ReachedInside.tick _ _ _ _ _ _ (ReachedInside.init 4 0 bootGame) (by decide) (by decide),
    by decide,
    occupancy_invariant _
      (ReachedInside.tick _ _ _ _ _ _ (ReachedInside.init 4 0 bootGame) (by decide) (by decide))
      (by decide)⟩

/-- C2. On `reversalTicks` the first movement step applies RIGHT and the next one applies
LEFT, its exact opposite: the requests UP and then LEFT are both latched between the two
steps, and the second step runs the head into the body and ends the game. -/
theorem reversal_between_steps :
    (playAll 4 reversalTicks bootGame).map (fun r => r.2) =
        some [Direction.RIGHT, Direction.LEFT] ∧
      opposite Direction.RIGHT Direction.LEFT = true ∧
      (playAll 4 reversalTicks bootGame).map (fun r => r.1.hasGameEnded) = some true := by
  refine ⟨rfl, rfl, rfl⟩

/-- C3. Self-collision: when `updateSnakeHeadPosition` moves the head to an in-grid cell `c`
in a game not yet ended, it sets `hasGameEnded` and `inTransition` to true exactly when
`gameMatrix[c]` is nonzero in the grid as it is before the step (before the head is stamped
and before the aging pass); when that cell is zero both flags keep their value.  In
particular a cell holding 1 ends the game, and the flag is still set after the rest of the
movement tick. -/
theorem self_collision (oob tMove tEat : Nat) (g : Game) (hne : g.hasGameEnded = false)
    (hin : outsideGrid (movedHead g.snakeDirection g.snakeHead) = false) :
    (updateSnakeHeadPosition oob g).snakeHead = movedHead g.snakeDirection g.snakeHead ∧
    ((updateSnakeHeadPosition oob g).hasGameEnded = true ↔
      g.gameMatrix.getD (cellOffset (movedHead g.snakeDirection g.snakeHead).x
        (movedHead g.snakeDirection g.snakeHead).y) 0 ≠ 0) ∧
    (g.gameMatrix.getD (cellOffset (movedHead g.snakeDirection g.snakeHead).x
        (movedHead g.snakeDirection g.snakeHead).y) 0 ≠ 0 →
      (updateSnakeHeadPosition oob g).hasGameEnded = true ∧
        (updateSnakeHeadPosition oob g).inTransition = true) ∧
    (g.gameMatrix.getD (cellOffset (movedHead g.snakeDirection g.snakeHead).x
        (movedHead g.snakeDirection g.snakeHead).y) 0 = 0 →
      (updateSnakeHeadPosition oob g).hasGameEnded = false ∧
        (updateSnakeHeadPosition oob g).inTransition = g.inTransition) ∧
    (g.gameMatrix.getD (cellOffset (movedHead g.snakeDirection g.snakeHead).x
        (movedHead g.snakeDirection g.snakeHead).y) 0 = 1 →
      (updateSnakeHeadPosition oob g).hasGameEnded = true ∧
        (updateSnakeHeadPosition oob g).inTransition = true) ∧
    (moveGateOpen tMove g = true →
      ((updateSnakePosition oob tMove tEat g).hasGameEnded = true ↔
        g.gameMatrix.getD (cellOffset (movedHead g.snakeDirection g.snakeHead).x
          (movedHead g.snakeDirection g.snakeHead).y) 0 ≠ 0)) := by
  have hxy := (outsideGrid_eq_false _).1 hin
  have hread := readMatrix_inside oob g.gameMatrix _ _ hxy.1 hxy.2
  have hpos : ∀ n : Nat, 0 < n ↔ n ≠ 0 := fun n => Nat.pos_iff_ne_zero
  have hA : g.gameMatrix.getD (cellOffset (movedHead g.snakeDirection g.snakeHead).x
        (movedHead g.snakeDirection g.snakeHead).y) 0 ≠ 0 →
      (updateSnakeHeadPosition oob g).hasGameEnded = true ∧
        (updateSnakeHeadPosition oob g).inTransition = true := by
    intro hv
    simp only [updateSnakeHeadPosition, checkSnakeAteHimself, hread, gt_iff_lt, hpos, hv,
      ne_eq, not_false_eq_true, if_true, hin, Bool.not_false, and_self]
  have hB : g.gameMatrix.getD (cellOffset (movedHead g.snakeDirection g.snakeHead).x
        (movedHead g.snakeDirection g.snakeHead).y) 0 = 0 →
      (updateSnakeHeadPosition oob g).hasGameEnded = false ∧
        (updateSnakeHeadPosition oob g).inTransition = g.inTransition := by
    intro hv
    simp only [updateSnakeHeadPosition, checkSnakeAteHimself, hread, gt_iff_lt, hv,
      lt_irrefl, if_false, hin, Bool.not_false, if_true, hne, and_self]
  have hC : (updateSnakeHeadPosition oob g).hasGameEnded = true ↔
      g.gameMatrix.getD (cellOffset (movedHead g.snakeDirection g.snakeHead).x
        (movedHead g.snakeDirection g.snakeHead).y) 0 ≠ 0 := by
    constructor
    · intro he hv
      rw [(hB hv).1] at he
      exact Bool.noConfusion he
    · intro hv
      exact (hA hv).1
  refine ⟨?_, hC, hA, hB, ?_, ?_⟩
  · simp only [updateSnakeHeadPosition, checkSnakeAteHimself]
    split_ifs <;> rfl
  · intro hv
    exact hA (by rw [hv]; decide)
  · intro hopen
    have hsame : (updateSnakePosition oob tMove tEat g).hasGameEnded =
        (updateSnakeHeadPosition oob g).hasGameEnded := by
      simp only [updateSnakePosition, hopen, if_true, updateSnakeWholeBody, checkSnakeAteFood,
        askForNewFood]
      split_ifs <;> rfl
    rw [hsame]
    exact hC

/-- Witness of C3: after `initGame`, with the direction latched to LEFT the head moves from
(5, 2) onto the body cell (5, 1). -/
theorem self_collision_witness :
    (updateSnakeHeadPosition 0
        (latched Direction.LEFT ⟨3, 3⟩ (initGame 4 0 bootGame))).hasGameEnded = true :=
  ((self_collision 0 400 400 (latched Direction.LEFT ⟨3, 3⟩ (initGame 4 0 bootGame))
    (by decide) (by decide)).2.2.1 (by decide)).1

/-- C4. `checkSnakeAteFood`: when the head equals the food, `snakeLength` is incremented
(as a byte: by exactly 1 below 255), every nonzero cell is incremented (likewise), every
zero cell stays 0, the food is the sentinel (255, 255) and `lastSnakeEatTimestamp` is the
current time; when the head differs from the food the state is unchanged. -/
theorem ate_food (now : Nat) (g : Game) :
    (g.snakeHead = g.food →
      (checkSnakeAteFood now g).snakeLength = (g.snakeLength + 1) % 256 ∧
      (g.snakeLength < 255 → (checkSnakeAteFood now g).snakeLength = g.snakeLength + 1) ∧
      (checkSnakeAteFood now g).gameMatrix.length = g.gameMatrix.length ∧
      (∀ i : Nat, i < g.gameMatrix.length →
        (g.gameMatrix.getD i 0 = 0 → (checkSnakeAteFood now g).gameMatrix.getD i 0 = 0) ∧
        (g.gameMatrix.getD i 0 ≠ 0 →
          (checkSnakeAteFood now g).gameMatrix.getD i 0 = (g.gameMatrix.getD i 0 + 1) % 256) ∧
        (g.gameMatrix.getD i 0 ≠ 0 → g.gameMatrix.getD i 0 < 255 →
          (checkSnakeAteFood now g).gameMatrix.getD i 0 = g.gameMatrix.getD i 0 + 1)) ∧
      (checkSnakeAteFood now g).food = ⟨255, 255⟩ ∧
      (checkSnakeAteFood now g).lastSnakeEatTimestamp = now) ∧
    (g.snakeHead ≠ g.food →
      checkSnakeAteFood now g = g) := by
  constructor
  · intro heq
    have hcell : ∀ i : Nat, i < g.gameMatrix.length →
        (checkSnakeAteFood now g).gameMatrix.getD i 0 = growCell (g.gameMatrix.getD i 0) := by
      intro i hi
      simp only [checkSnakeAteFood, heq, if_true, askForNewFood]
      rw [List.getD_eq_getElem _ _ (by simpa using hi), List.getD_eq_getElem _ _ hi,
        List.getElem_map]
    refine ⟨?_, ?_, ?_, ?_, ?_, ?_⟩
    · simp only [checkSnakeAteFood, heq, if_true, askForNewFood]
    · intro hL
      simp only [checkSnakeAteFood, heq, if_true, askForNewFood]
      exact Nat.mod_eq_of_lt (by omega)
    · simp only [checkSnakeAteFood, heq, if_true, askForNewFood, List.length_map]
    · intro i hi
      rw [hcell i hi]
      refine ⟨?_, ?_, ?_⟩
      · intro h0
        rw [h0]
        rfl
      · intro hnz
        unfold growCell
        rw [if_pos (Nat.pos_of_ne_zero hnz)]
      · intro hnz hlt
        unfold growCell
        rw [if_pos (Nat.pos_of_ne_zero hnz)]
        exact Nat.mod_eq_of_lt (by omega)
    · simp only [checkSnakeAteFood, heq, if_true, askForNewFood]
    · simp only [checkSnakeAteFood, heq, if_true, askForNewFood]
  · intro hne
    simp only [checkSnakeAteFood, hne, if_false]

/-- Witness of C4: the state after `initGame` with the food placed under the head at
(5, 2): the length goes from 3 to 4 and the food is unset. -/
theorem ate_food_witness :
    (checkSnakeAteFood 77 (latched Direction.RIGHT ⟨5, 2⟩ (initGame 4 0 bootGame))).snakeLength
        = 4 ∧
      (checkSnakeAteFood 77 (latched Direction.RIGHT ⟨5, 2⟩ (initGame 4 0 bootGame))).food
        = ⟨255, 255⟩ :=
  ⟨((ate_food 77 (latched Direction.RIGHT ⟨5, 2⟩ (initGame 4 0 bootGame))).1 (by decide)).2.1
      (by decide),
    ((ate_food 77 (latched Direction.RIGHT ⟨5, 2⟩ (initGame 4 0 bootGame))).1
      (by decide)).2.2.2.2.1⟩

/-- C8. `checkIfGameHasEnded` sets `hasGameEnded` and `inTransition` to true when the head
is outside the 8x8 grid, or `snakeLength > 64`, or `snakeNumberOfLives ≤ 0`; when none of
the three holds both flags keep their value (so a game not ended on entry is ended on exit
exactly when one of the three holds); in every case no other member changes, in particular
not the grid, the head, the length, the food or the lives. -/
theorem game_end_check (g : Game) :
    ((8 ≤ g.snakeHead.x ∨ 8 ≤ g.snakeHead.y) ∨ g.snakeLength > 64 ∨ g.snakeNumberOfLives ≤ 0 →
      (checkIfGameHasEnded g).hasGameEnded = true ∧
        (checkIfGameHasEnded g).inTransition = true) ∧
    (¬ ((8 ≤ g.snakeHead.x ∨ 8 ≤ g.snakeHead.y) ∨ g.snakeLength > 64 ∨
        g.snakeNumberOfLives ≤ 0) →
      (checkIfGameHasEnded g).hasGameEnded = g.hasGameEnded ∧
        (checkIfGameHasEnded g).inTransition = g.inTransition) ∧
    (g.hasGameEnded = false →
      ((checkIfGameHasEnded g).hasGameEnded = true ↔
        ((8 ≤ g.snakeHead.x ∨ 8 ≤ g.snakeHead.y) ∨ g.snakeLength > 64 ∨
          g.snakeNumberOfLives ≤ 0))) ∧
    ((checkIfGameHasEnded g).gameMatrix = g.gameMatrix ∧
      (checkIfGameHasEnded g).snakeHead = g.snakeHead ∧
      (checkIfGameHasEnded g).snakeLength = g.snakeLength ∧
      (checkIfGameHasEnded g).food = g.food ∧
      (checkIfGameHasEnded g).snakeNumberOfLives = g.snakeNumberOfLives) ∧
    checkIfGameHasEnded g =
      { g with
        hasGameEnded := (checkIfGameHasEnded g).hasGameEnded
        inTransition := (checkIfGameHasEnded g).inTransition } := by
  have hout : outsideGrid g.snakeHead = true ↔ (8 ≤ g.snakeHead.x ∨ 8 ≤ g.snakeHead.y) :=
    outsideGrid_eq_true g.snakeHead
  have hA : (8 ≤ g.snakeHead.x ∨ 8 ≤ g.snakeHead.y) ∨ g.snakeLength > 64 ∨
      g.snakeNumberOfLives ≤ 0 →
      (checkIfGameHasEnded g).hasGameEnded = true ∧
        (checkIfGameHasEnded g).inTransition = true := by
    intro h
    unfold checkIfGameHasEnded
    simp only [MATRIX_SIZE]
    rcases h with h | h | h
    · rw [← hout] at h
      split_ifs <;> simp_all
    · split_ifs <;> simp_all
    · split_ifs <;> simp_all
  have hB : ¬ ((8 ≤ g.snakeHead.x ∨ 8 ≤ g.snakeHead.y) ∨ g.snakeLength > 64 ∨
      g.snakeNumberOfLives ≤ 0) → checkIfGameHasEnded g = g := by
    intro h
    rw [← hout] at h
    push_neg at h
    obtain ⟨h1, h2, h3⟩ := h
    have h2' : ¬ g.snakeLength > 8 * 8 := by omega
    have h3' : ¬ g.snakeNumberOfLives ≤ 0 := by omega
    unfold checkIfGameHasEnded
    have h1' : outsideGrid g.snakeHead = false := by simpa using h1
    simp only [MATRIX_SIZE, h1', Bool.false_eq_true, if_false, h2', h3']
  refine ⟨hA, ?_, ?_, ?_, ?_⟩
  · intro h
    rw [hB h]
    exact ⟨rfl, rfl⟩
  · intro hne
    constructor
    · intro he
      by_contra hc
      rw [hB hc, hne] at he
      exact Bool.noConfusion he
    · intro h
      exact (hA h).1
  · unfold checkIfGameHasEnded
    simp only [MATRIX_SIZE]
    split_ifs <;> exact ⟨rfl, rfl, rfl, rfl, rfl⟩
  · unfold checkIfGameHasEnded
    simp only [MATRIX_SIZE]
    split_ifs <;> rfl

/-- Witness of C8: the state `wallExit`, whose head (5, 8) is outside the grid, is flagged
ended by the check. -/
theorem game_end_check_witness :
    (checkIfGameHasEnded wallExit).hasGameEnded = true ∧
      (checkIfGameHasEnded wallExit).inTransition = true :=
  (game_end_check wallExit).1 (Or.inl (Or.inr (by decide)))

/-- C9. Wall detection: from an in-grid head `(x, y)`, `updateSnakeHeadPosition` leaves the
head on the adjacent cell when that cell is inside the 8x8 grid (UP: `x - 1`, DOWN: `x + 1`,
LEFT: `y - 1`, RIGHT: `y + 1`); otherwise the head holds the unclamped coordinate (8 past
the high side, 255 after the byte wraps below 0), which the wall test classifies as outside
the grid, so that `checkIfGameHasEnded` flags the game ended. -/
theorem wall_detection (oob : Nat) (g : Game) (hx : g.snakeHead.x < 8) (hy : g.snakeHead.y < 8) :
    (g.snakeDirection = Direction.UP →
      (0 < g.snakeHead.x →
        (updateSnakeHeadPosition oob g).snakeHead = ⟨g.snakeHead.x - 1, g.snakeHead.y⟩ ∧
          outsideGrid (updateSnakeHeadPosition oob g).snakeHead = false) ∧
      (g.snakeHead.x = 0 →
        (updateSnakeHeadPosition oob g).snakeHead = ⟨255, g.snakeHead.y⟩ ∧
          outsideGrid (updateSnakeHeadPosition oob g).snakeHead = true)) ∧
    (g.snakeDirection = Direction.DOWN →
      (g.snakeHead.x < 7 →
        (updateSnakeHeadPosition oob g).snakeHead = ⟨g.snakeHead.x + 1, g.snakeHead.y⟩ ∧
          outsideGrid (updateSnakeHeadPosition oob g).snakeHead = false) ∧
      (g.snakeHead.x = 7 →
        (updateSnakeHeadPosition oob g).snakeHead = ⟨8, g.snakeHead.y⟩ ∧
          outsideGrid (updateSnakeHeadPosition oob g).snakeHead = true)) ∧
    (g.snakeDirection = Direction.LEFT →
      (0 < g.snakeHead.y →
        (updateSnakeHeadPosition oob g).snakeHead = ⟨g.snakeHead.x, g.snakeHead.y - 1⟩ ∧
          outsideGrid (updateSnakeHeadPosition oob g).snakeHead = false) ∧
      (g.snakeHead.y = 0 →
        (updateSnakeHeadPosition oob g).snakeHead = ⟨g.snakeHead.x, 255⟩ ∧
          outsideGrid (updateSnakeHeadPosition oob g).snakeHead = true)) ∧
    (g.snakeDirection = Direction.RIGHT →
      (g.snakeHead.y < 7 →
        (updateSnakeHeadPosition oob g).snakeHead = ⟨g.snakeHead.x, g.snakeHead.y + 1⟩ ∧
          outsideGrid (updateSnakeHeadPosition oob g).snakeHead = false) ∧
      (g.snakeHead.y = 7 →
        (updateSnakeHeadPosition oob g).snakeHead = ⟨g.snakeHead.x, 8⟩ ∧
          outsideGrid (updateSnakeHeadPosition oob g).snakeHead = true)) ∧
    (outsideGrid (updateSnakeHeadPosition oob g).snakeHead = true →
      (checkIfGameHasEnded (updateSnakeHeadPosition oob g)).hasGameEnded = true ∧
        (checkIfGameHasEnded (updateSnakeHeadPosition oob g)).inTransition = true) := by
  have hhead : (updateSnakeHeadPosition oob g).snakeHead =
      movedHead g.snakeDirection g.snakeHead := by
    simp only [updateSnakeHeadPosition, checkSnakeAteHimself]
    split_ifs <;> rfl
  rw [hhead]
  refine ⟨?_, ?_, ?_, ?_, ?_⟩
  · intro hd
    rw [hd]
    constructor
    · intro h
      have e : (g.snakeHead.x + 255) % 256 = g.snakeHead.x - 1 := by omega
      simp only [movedHead, e, outsideGrid, MATRIX_SIZE]
      refine ⟨trivial, ?_⟩
      simp
      omega
    · intro h
      rw [outsideGrid_eq_true]
      simp [movedHead, h]
  · intro hd
    rw [hd]
    constructor
    · intro h
      have e : (g.snakeHead.x + 1) % 256 = g.snakeHead.x + 1 := by omega
      simp only [movedHead, e, outsideGrid, MATRIX_SIZE]
      refine ⟨trivial, ?_⟩
      simp
      omega
    · intro h
      rw [outsideGrid_eq_true]
      simp [movedHead, h]
  · intro hd
    rw [hd]
    constructor
    · intro h
      have e : (g.snakeHead.y + 255) % 256 = g.snakeHead.y - 1 := by omega
      simp only [movedHead, e, outsideGrid, MATRIX_SIZE]
      refine ⟨trivial, ?_⟩
      simp
      omega
    · intro h
      rw [outsideGrid_eq_true]
      simp [movedHead, h]
  · intro hd
    rw [hd]
    constructor
    · intro h
      have e : (g.snakeHead.y + 1) % 256 = g.snakeHead.y + 1 := by omega
      simp only [movedHead, e, outsideGrid, MATRIX_SIZE]
      refine ⟨trivial, ?_⟩
      simp
      omega
    · intro h
      rw [outsideGrid_eq_true]
      simp [movedHead, h]
  · intro hout
    rw [← hhead] at hout
    unfold checkIfGameHasEnded
    simp only [hout, if_true]
    split_ifs <;> exact ⟨rfl, rfl⟩

/-- Witness of C9: a head at (0, 3) moving UP wraps to (255, 3), outside the grid. -/
theorem wall_detection_witness :
    (updateSnakeHeadPosition 0
        { latched Direction.UP ⟨3, 3⟩ (initGame 4 0 bootGame) with snakeHead := ⟨0, 3⟩ }).snakeHead
        = ⟨255, 3⟩ ∧
      outsideGrid (updateSnakeHeadPosition 0
        { latched Direction.UP ⟨3, 3⟩ (initGame 4 0 bootGame) with
          snakeHead := ⟨0, 3⟩ }).snakeHead = true :=
  ((wall_detection 0
    { latched Direction.UP ⟨3, 3⟩ (initGame 4 0 bootGame) with snakeHead := ⟨0, 3⟩ }
    (by decide) (by decide)).1 rfl).2 rfl

/-- C10. Starvation step: when `now - lastSnakeEatTimestamp >= 20000` (unsigned
subtraction, which is the plain difference when the clock has not wrapped)
`checkSnakeStarvationStatus` decrements the lives by exactly 1, sets
`lastSnakeEatTimestamp` to `now` and sets `lostALife`; otherwise the state is unchanged.
In both cases `hasGameEnded` keeps its value. -/
theorem starvation_step (now : Nat) (g : Game) :
    (sub32 now g.lastSnakeEatTimestamp ≥ 20000 →
      (checkSnakeStarvationStatus now g).snakeNumberOfLives = g.snakeNumberOfLives - 1 ∧
      (checkSnakeStarvationStatus now g).lastSnakeEatTimestamp = now ∧
      (checkSnakeStarvationStatus now g).lostALife = true) ∧
    (sub32 now g.lastSnakeEatTimestamp < 20000 →
      (checkSnakeStarvationStatus now g).snakeNumberOfLives = g.snakeNumberOfLives ∧
      (checkSnakeStarvationStatus now g).lastSnakeEatTimestamp = g.lastSnakeEatTimestamp ∧
      (checkSnakeStarvationStatus now g).lostALife = g.lostALife ∧
      checkSnakeStarvationStatus now g = g) ∧
    (checkSnakeStarvationStatus now g).hasGameEnded = g.hasGameEnded ∧
    (g.lastSnakeEatTimestamp ≤ now → now < 4294967296 →
      sub32 now g.lastSnakeEatTimestamp = now - g.lastSnakeEatTimestamp) := by
  refine ⟨?_, ?_, ?_, ?_⟩
  · intro h
    have h' : sub32 now g.lastSnakeEatTimestamp ≥ STARVING_TIME_INTERVAL := h
    simp only [checkSnakeStarvationStatus, h', if_true, and_self]
  · intro h
    have h' : ¬ sub32 now g.lastSnakeEatTimestamp ≥ STARVING_TIME_INTERVAL := by
      simp only [STARVING_TIME_INTERVAL]; omega
    simp only [checkSnakeStarvationStatus, h', if_false, and_self]
  · unfold checkSnakeStarvationStatus
    split_ifs <;> rfl
  · intro h1 h2
    unfold sub32
    omega

/-- Witness of C10: 20000 ms after the last meal the lives go from 3 to 2. -/
theorem starvation_step_witness :
    (checkSnakeStarvationStatus 20000 (initGame 4 0 bootGame)).snakeNumberOfLives = 2 ∧
      (checkSnakeStarvationStatus 20000 (initGame 4 0 bootGame)).lostALife = true :=
  ⟨((starvation_step 20000 (initGame 4 0 bootGame)).1 (by decide)).1,
    ((starvation_step 20000 (initGame 4 0 bootGame)).1 (by decide)).2.2⟩

/-! ## Starvation in sequence: auxiliary facts -/

theorem sub32_of_le (a b : Nat) (hab : b ≤ a) (ha : a < 4294967296) : sub32 a b = a - b := by
  unfold sub32
  omega

theorem losesLife_iff (now : Nat) (g : Game) :
    losesLife now g = true ↔ sub32 now g.lastSnakeEatTimestamp ≥ 20000 := by
  unfold losesLife checkSnakeStarvationStatus
  simp only [STARVING_TIME_INTERVAL]
  split_ifs with h
  · simp only [ne_eq, decide_eq_true_eq]
    constructor
    · intro _; exact h
    · intro _; omega
  · simp only [ne_eq, not_true_eq_false, decide_False, Bool.false_eq_true, false_iff]
    exact h

theorem checkSnakeStarvationStatus_of_lt (now : Nat) (g : Game)
    (h : ¬ sub32 now g.lastSnakeEatTimestamp ≥ STARVING_TIME_INTERVAL) :
    checkSnakeStarvationStatus now g = g := by
  simp only [checkSnakeStarvationStatus, h, if_false]

/-- After a check at time `t` that starts at or after the last meal, the last-meal stamp is
still at or before `t`. -/
theorem checkSnakeStarvationStatus_stamp_le (t : Nat) (g : Game)
    (h : g.lastSnakeEatTimestamp ≤ t) :
    (checkSnakeStarvationStatus t g).lastSnakeEatTimestamp ≤ t := by
  unfold checkSnakeStarvationStatus
  split_ifs
  · exact Nat.le_refl t
  · exact h

/-- Every life loss of a run lies at least 20000 ms after the last-meal stamp the run
starts from. -/
theorem lifeLosses_after_stamp (ts : List Nat) :
    ∀ g : Game, ts.Pairwise (fun a b => a ≤ b) → (∀ t ∈ ts, t < 4294967296) →
      (∀ t ∈ ts, g.lastSnakeEatTimestamp ≤ t) →
      ∀ l ∈ lifeLosses ts g, g.lastSnakeEatTimestamp + 20000 ≤ l := by
  induction ts with
  | nil => intro g _ _ _ l hl; simp [lifeLosses] at hl
  | cons t rest ih =>
    intro g hs hb hle l hl
    rw [List.pairwise_cons] at hs
    have ht : g.lastSnakeEatTimestamp ≤ t := hle t (List.mem_cons_self t rest)
    have htb : t < 4294967296 := hb t (List.mem_cons_self t rest)
    have hb' : ∀ u ∈ rest, u < 4294967296 := fun u hu => hb u (List.mem_cons_of_mem t hu)
    have hsub := sub32_of_le t g.lastSnakeEatTimestamp ht htb
    unfold lifeLosses at hl
    by_cases hlose : losesLife t g = true
    · have hgap : sub32 t g.lastSnakeEatTimestamp ≥ 20000 := (losesLife_iff t g).1 hlose
      have hstamp : (checkSnakeStarvationStatus t g).lastSnakeEatTimestamp = t := by
        have h' : sub32 t g.lastSnakeEatTimestamp ≥ STARVING_TIME_INTERVAL := hgap
        simp only [checkSnakeStarvationStatus, h', if_true]
      rw [if_pos hlose] at hl
      rcases List.mem_cons.1 hl with h1 | h1
      · rw [h1]; omega
      · have := ih (checkSnakeStarvationStatus t g) hs.2 hb'
          (fun u hu => by rw [hstamp]; exact hs.1 u hu) l h1
        rw [hstamp] at this
        omega
    · have hkeep : checkSnakeStarvationStatus t g = g := by
        have h' : ¬ sub32 t g.lastSnakeEatTimestamp ≥ STARVING_TIME_INTERVAL := by
          intro hc
          exact hlose ((losesLife_iff t g).2 hc)
        simp only [checkSnakeStarvationStatus, h', if_false]
      rw [if_neg hlose, hkeep] at hl
      exact ih g hs.2 hb' (fun u hu => hle u (List.mem_cons_of_mem t hu)) l hl

/-- Any two life losses of a run at non-decreasing clock values are at least 20000 ms
apart, whatever the last-meal stamp at the start. -/
theorem lifeLosses_pairwise (ts : List Nat) :
    ∀ g : Game, ts.Pairwise (fun a b => a ≤ b) → (∀ t ∈ ts, t < 4294967296) →
      (lifeLosses ts g).Pairwise (fun a b => a + 20000 ≤ b) := by
  induction ts with
  | nil => intro g _ _; simp [lifeLosses]
  | cons t rest ih =>
    intro g hs hb
    rw [List.pairwise_cons] at hs
    have hb' : ∀ u ∈ rest, u < 4294967296 := fun u hu => hb u (List.mem_cons_of_mem t hu)
    unfold lifeLosses
    by_cases hlose : losesLife t g = true
    · have hgap : sub32 t g.lastSnakeEatTimestamp ≥ STARVING_TIME_INTERVAL :=
        (losesLife_iff t g).1 hlose
      have hstamp : (checkSnakeStarvationStatus t g).lastSnakeEatTimestamp = t := by
        simp only [checkSnakeStarvationStatus, hgap, if_true]
      rw [if_pos hlose, List.pairwise_cons]
      refine ⟨?_, ih _ hs.2 hb'⟩
      intro l hl
      have := lifeLosses_after_stamp rest (checkSnakeStarvationStatus t g) hs.2 hb'
        (fun u hu => by rw [hstamp]; exact hs.1 u hu) l hl
      rw [hstamp] at this
      exact this
    · rw [if_neg hlose]
      exact ih _ hs.2 hb'

/-! ## Starvation in sequence: claim -/

/-- C11. Starvation fires once per threshold crossing: along starvation checks at
non-decreasing clock values with no food eaten in between, any two life losses are at least
20000 ms apart; and after a check at `t` that took a life, a check at `t'` with
`t ≤ t' < t + 20000` leaves the lives as they are. -/
theorem starvation_once_per_crossing (ts : List Nat) (g : Game)
    (hs : ts.Pairwise (fun a b => a ≤ b)) (hb : ∀ t ∈ ts, t < 4294967296) :
    (lifeLosses ts g).Pairwise (fun a b => a + 20000 ≤ b) ∧
    (∀ t t' : Nat, losesLife t g = true → t ≤ t' → t' < t + 20000 → t' < 4294967296 →
      losesLife t' (checkSnakeStarvationStatus t g) = false ∧
      (checkSnakeStarvationStatus t' (checkSnakeStarvationStatus t g)).snakeNumberOfLives =
        (checkSnakeStarvationStatus t g).snakeNumberOfLives ∧
      (checkSnakeStarvationStatus t g).snakeNumberOfLives = g.snakeNumberOfLives - 1) := by
  refine ⟨lifeLosses_pairwise ts g hs hb, ?_⟩
  intro t t' hlose hle hlt hb'
  have hgap : sub32 t g.lastSnakeEatTimestamp ≥ STARVING_TIME_INTERVAL :=
    (losesLife_iff t g).1 hlose
  have hstep : checkSnakeStarvationStatus t g =
      { g with
        lastSnakeEatTimestamp := t
        lostALife := true
        snakeNumberOfLives := g.snakeNumberOfLives - 1 } := by
    simp only [checkSnakeStarvationStatus, hgap, if_true]
  have hno : ¬ sub32 t' (checkSnakeStarvationStatus t g).lastSnakeEatTimestamp ≥ 20000 := by
    rw [hstep]
    show ¬ sub32 t' t ≥ 20000
    rw [sub32_of_le t' t hle hb']
    omega
  have hfalse : losesLife t' (checkSnakeStarvationStatus t g) = false := by
    cases hc : losesLife t' (checkSnakeStarvationStatus t g)
    · rfl
    · exact absurd ((losesLife_iff _ _).1 hc) hno
  refine ⟨hfalse, ?_, ?_⟩
  · rw [checkSnakeStarvationStatus_of_lt t' _ hno]
  · rw [hstep]

/-- Witness of C11: checks at 0, 20000, 20000, 30000 and 45000 ms after `initGame` at
clock 0 take a life at 20000 and at 45000 ms only. -/
theorem starvation_once_per_crossing_witness :
    lifeLosses [0, 20000, 20000, 30000, 45000] (initGame 4 0 bootGame) = [20000, 45000] ∧
      (lifeLosses [0, 20000, 20000, 30000, 45000] (initGame 4 0 bootGame)).Pairwise
        (fun a b => a + 20000 ≤ b) :=
  ⟨by decide,
    (starvation_once_per_crossing [0, 20000, 20000, 30000, 45000] (initGame 4 0 bootGame)
      (by decide) (by decide)).1⟩

/-! ## Food placement: auxiliary facts -/

theorem checkSnakeStarvationStatus_grid_food (now : Nat) (g : Game) :
    (checkSnakeStarvationStatus now g).gameMatrix = g.gameMatrix ∧
      (checkSnakeStarvationStatus now g).food = g.food ∧
      (checkSnakeStarvationStatus now g).hasGameEnded = g.hasGameEnded := by
  unfold checkSnakeStarvationStatus
  split_ifs <;> exact ⟨rfl, rfl, rfl⟩

theorem checkIfGameHasEnded_grid_food (g : Game) :
    (checkIfGameHasEnded g).gameMatrix = g.gameMatrix ∧ (checkIfGameHasEnded g).food = g.food := by
  unfold checkIfGameHasEnded
  simp only [MATRIX_SIZE]
  split_ifs <;> exact ⟨rfl, rfl⟩

/-- What `generateNewFood` has done when it returns: only the food has changed, it lies in
the grid and its cell reads 0. -/
theorem generateNewFood_some (draws : List (Nat × Nat)) :
    ∀ g g' : Game, generateNewFood draws g = some g' →
      g'.food.x < 8 ∧ g'.food.y < 8 ∧
        readMatrix 0 g'.gameMatrix g'.food.x g'.food.y = 0 ∧ g' = { g with food := g'.food } := by
  induction draws with
  | nil => intro g g' h; simp [generateNewFood] at h
  | cons d rest ih =>
    intro g g' h
    obtain ⟨rx, ry⟩ := d
    unfold generateNewFood at h
    simp only at h
    split_ifs at h with hc
    · obtain ⟨h1, h2, h3, h4⟩ := ih _ g' h
      refine ⟨h1, h2, h3, ?_⟩
      rw [h4]
    · have hg : g' = { g with food := ⟨rx % MATRIX_SIZE, ry % MATRIX_SIZE⟩ } :=
        (Option.some.inj h).symm
      subst hg
      refine ⟨Nat.mod_lt _ (by decide), Nat.mod_lt _ (by decide), ?_, rfl⟩
      exact Nat.eq_zero_of_not_pos hc

/-- The loop of `generateNewFood` returns as soon as a draw falls on a cell reading 0. -/
theorem generateNewFood_returns (draws : List (Nat × Nat)) :
    ∀ g : Game, (∃ d ∈ draws, readMatrix 0 g.gameMatrix (d.1 % 8) (d.2 % 8) = 0) →
      ∃ g', generateNewFood draws g = some g' := by
  induction draws with
  | nil => intro g h; obtain ⟨d, hd, _⟩ := h; simp at hd
  | cons d rest ih =>
    intro g h
    obtain ⟨rx, ry⟩ := d
    unfold generateNewFood
    simp only
    split_ifs with hc
    · apply ih
      obtain ⟨d', hd', hfree⟩ := h
      rcases List.mem_cons.1 hd' with h1 | h1
      · subst h1
        simp only [MATRIX_SIZE] at hc
        simp only at hfree
        omega
      · exact ⟨d', h1, hfree⟩
    · exact ⟨_, rfl⟩

/-- On a grid whose 64 cells are all nonzero the loop of `generateNewFood` is still running
after any number of draws. -/
theorem generateNewFood_full (draws : List (Nat × Nat)) :
    ∀ g : Game, (∀ i : Nat, i < 64 → g.gameMatrix.getD i 0 ≠ 0) →
      generateNewFood draws g = none := by
  induction draws with
  | nil => intro g _; rfl
  | cons d rest ih =>
    intro g hfull
    obtain ⟨rx, ry⟩ := d
    have hx : rx % 8 < 8 := Nat.mod_lt _ (by decide)
    have hy : ry % 8 < 8 := Nat.mod_lt _ (by decide)
    have hcell : readMatrix 0 g.gameMatrix (rx % 8) (ry % 8) > 0 := by
      rw [readMatrix_inside 0 _ _ _ hx hy]
      apply Nat.pos_of_ne_zero
      apply hfull
      unfold cellOffset
      simp only [MATRIX_SIZE]
      omega
    unfold generateNewFood
    simp only [MATRIX_SIZE, hcell, if_true]
    exact ih _ hfull

/-- A call of `play()` on a running game with the food unset and a full grid does not get
past `generateNewFood`. -/
theorem play_full (difficulty : Nat) (inp : TickInput) (g : Game)
    (he : g.hasGameEnded = false) (ht : g.inTransition = false)
    (hfood : g.food = ⟨ASKING_FOR_NEW_FOOD_VALUE, ASKING_FOR_NEW_FOOD_VALUE⟩)
    (hfull : ∀ i : Nat, i < 64 → g.gameMatrix.getD i 0 ≠ 0) :
    play difficulty inp g = none := by
  have hg : (checkIfGameHasEnded (checkSnakeStarvationStatus inp.tStarve g)).gameMatrix =
      g.gameMatrix := by
    rw [(checkIfGameHasEnded_grid_food _).1, (checkSnakeStarvationStatus_grid_food _ _).1]
  have hf : (checkIfGameHasEnded (checkSnakeStarvationStatus inp.tStarve g)).food =
      ⟨255, 255⟩ := by
    rw [(checkIfGameHasEnded_grid_food _).2, (checkSnakeStarvationStatus_grid_food _ _).2.1, hfood]
  have hnone := generateNewFood_full inp.draws
    (checkIfGameHasEnded (checkSnakeStarvationStatus inp.tStarve g))
    (by rw [hg]; exact hfull)
  simp only [play, he, ht, Bool.false_eq_true, if_false, hf, ASKING_FOR_NEW_FOOD_VALUE,
    true_or, if_true, hnone]

/-! ## Food placement: claims -/

/-- C12. On `secondSessionTicks` the first game ends with the food at (5, 1); the switch
press starts a second session, whose `initGame` lays the snake over (5, 0), (5, 1), (5, 2)
and leaves the food where it was: after the first call of `play()` of the second session
the game is running, the food is set at (5, 1) and that grid cell holds 1. -/
theorem food_on_snake_in_second_session :
    (playAll 4 secondSessionTicks bootGame).map
        (fun r => (r.1.hasGameEnded, r.1.food,
          r.1.gameMatrix.getD (cellOffset r.1.food.x r.1.food.y) 0)) =
      some (false, ⟨5, 1⟩, 1) :=
  rfl

/-- C13. `generateNewFood` postcondition: for every grid and every sequence of draws, when
the function returns the food coordinates are both in `[0, 7]`, the grid cell at the food
holds 0 and nothing but the food has changed (the grid is the same); and it does return
when one of the draws falls on a cell holding 0. -/
theorem generateNewFood_postcondition (draws : List (Nat × Nat)) (g : Game) :
    (∀ g' : Game, generateNewFood draws g = some g' →
      g'.food.x ≤ 7 ∧ g'.food.y ≤ 7 ∧
        g'.gameMatrix.getD (cellOffset g'.food.x g'.food.y) 0 = 0 ∧
        g'.gameMatrix = g.gameMatrix ∧ g' = { g with food := g'.food }) ∧
    ((∃ d ∈ draws, g.gameMatrix.getD (cellOffset (d.1 % 8) (d.2 % 8)) 0 = 0) →
      ∃ g', generateNewFood draws g = some g') := by
  constructor
  · intro g' h
    obtain ⟨h1, h2, h3, h4⟩ := generateNewFood_some draws g g' h
    rw [readMatrix_inside 0 _ _ _ h1 h2] at h3
    refine ⟨by omega, by omega, h3, ?_, h4⟩
    rw [h4]
  · intro h
    apply generateNewFood_returns
    obtain ⟨d, hd, hfree⟩ := h
    refine ⟨d, hd, ?_⟩
    rw [readMatrix_inside 0 _ _ _ (Nat.mod_lt _ (by decide)) (Nat.mod_lt _ (by decide))]
    exact hfree

/-- Witness of C13: after `initGame` the draw (5, 1) falls on the snake and the draw (2, 6)
on a free cell, where the food is placed. -/
theorem generateNewFood_postcondition_witness :
    ∃ g', generateNewFood [(5, 1), (2, 6)] (initGame 4 0 bootGame) = some g' ∧
      g'.food = ⟨2, 6⟩ ∧ g'.gameMatrix = (initGame 4 0 bootGame).gameMatrix :=
  ⟨{ initGame 4 0 bootGame with food := ⟨2, 6⟩ }, rfl, rfl,
    ((generateNewFood_postcondition [(5, 1), (2, 6)] (initGame 4 0 bootGame)).1 _ rfl).2.2.2.1⟩

set_option maxRecDepth 100000 in
/-- C14. The perfect game `feastTicks` (61 calls of `play()`, a meal at every movement
step) ends in `fullGame`: a running game with `snakeLength = 64`, all 64 cells nonzero and
the food unset.  There `generateNewFood` has not returned after any number of draws, and so
neither has the next call of `play()`. -/
theorem food_loop_never_returns :
    (playAll 4 feastTicks bootGame).map (fun r => r.1) = some fullGame ∧
      fullGame.snakeLength = 64 ∧
      (∀ i : Nat, i < 64 → fullGame.gameMatrix.getD i 0 ≠ 0) ∧
      (∀ draws : List (Nat × Nat), generateNewFood draws fullGame = none) ∧
      (∀ (difficulty : Nat) (inp : TickInput), play difficulty inp fullGame = none) := by
  have hfull : ∀ i : Nat, i < 64 → fullGame.gameMatrix.getD i 0 ≠ 0 := by decide
  refine ⟨by decide, rfl, hfull, fun draws => generateNewFood_full draws fullGame hfull, ?_⟩
  intro difficulty inp
  exact play_full difficulty inp fullGame rfl rfl rfl hfull

/-! ## Head stamp, aging pass and direction latch: auxiliary facts -/

/-- The grid after `updateSnakeHeadPosition`. -/
theorem updateSnakeHeadPosition_grid (oob : Nat) (g : Game) :
    (updateSnakeHeadPosition oob g).gameMatrix =
      if outsideGrid (movedHead g.snakeDirection g.snakeHead) = true then g.gameMatrix
      else writeMatrix g.gameMatrix (movedHead g.snakeDirection g.snakeHead).x
        (movedHead g.snakeDirection g.snakeHead).y (g.snakeLength + 1) := by
  simp only [updateSnakeHeadPosition, checkSnakeAteHimself]
  split_ifs <;> simp_all

theorem getD_set_same (m : List Nat) (i v : Nat) (hi : i < m.length) :
    (m.set i v).getD i 0 = v := by
  rw [List.getD_eq_getElem?_getD, List.getElem?_set]
  simp [hi]

theorem getD_set_other (m : List Nat) (i j v : Nat) (hij : i ≠ j) :
    (m.set i v).getD j 0 = m.getD j 0 := by
  rw [List.getD_eq_getElem?_getD, List.getElem?_set, List.getD_eq_getElem?_getD]
  simp [hij]

theorem getD_map_ageCell (m : List Nat) (i : Nat) :
    (m.map ageCell).getD i 0 = ageCell (m.getD i 0) :=
  List.getD_map m 0 ageCell

/-! ## Head stamp, aging pass and direction latch: claims -/

/-- C15. Head stamp is guarded: when the new head lies within `[0, 7] x [0, 7]`,
`updateSnakeHeadPosition` writes `snakeLength + 1` (as a byte) into the grid cell of the new
head and changes no other cell; when the new head is outside the grid the whole grid is
unchanged.  The grid keeps its 64 cells. -/
theorem head_stamp_guarded (oob : Nat) (g : Game) (hlen : g.gameMatrix.length = 64) :
    ((movedHead g.snakeDirection g.snakeHead).x < 8 ∧
        (movedHead g.snakeDirection g.snakeHead).y < 8 →
      (updateSnakeHeadPosition oob g).gameMatrix.getD
          (cellOffset (movedHead g.snakeDirection g.snakeHead).x
            (movedHead g.snakeDirection g.snakeHead).y) 0 = (g.snakeLength + 1) % 256 ∧
      (g.snakeLength < 255 →
        (updateSnakeHeadPosition oob g).gameMatrix.getD
          (cellOffset (movedHead g.snakeDirection g.snakeHead).x
            (movedHead g.snakeDirection g.snakeHead).y) 0 = g.snakeLength + 1) ∧
      (∀ x y : Nat, x < 8 → y < 8 →
        (x ≠ (movedHead g.snakeDirection g.snakeHead).x ∨
          y ≠ (movedHead g.snakeDirection g.snakeHead).y) →
        (updateSnakeHeadPosition oob g).gameMatrix.getD (cellOffset x y) 0 =
          g.gameMatrix.getD (cellOffset x y) 0)) ∧
    (¬ ((movedHead g.snakeDirection g.snakeHead).x < 8 ∧
        (movedHead g.snakeDirection g.snakeHead).y < 8) →
      (updateSnakeHeadPosition oob g).gameMatrix = g.gameMatrix) ∧
    (updateSnakeHeadPosition oob g).gameMatrix.length = 64 ∧
    (updateSnakeHeadPosition oob g).snakeHead = movedHead g.snakeDirection g.snakeHead := by
  have hgrid := updateSnakeHeadPosition_grid oob g
  refine ⟨?_, ?_, ?_, ?_⟩
  · intro hin
    have hout : outsideGrid (movedHead g.snakeDirection g.snakeHead) = false :=
      (outsideGrid_eq_false _).2 hin
    rw [hout] at hgrid
    simp only [Bool.false_eq_true, if_false] at hgrid
    rw [hgrid]
    unfold writeMatrix
    have hoff : cellOffset (movedHead g.snakeDirection g.snakeHead).x
        (movedHead g.snakeDirection g.snakeHead).y < g.gameMatrix.length := by
      rw [hlen]; unfold cellOffset; simp only [MATRIX_SIZE]; omega
    refine ⟨getD_set_same _ _ _ hoff, ?_, ?_⟩
    · intro hL
      rw [getD_set_same _ _ _ hoff]
      exact Nat.mod_eq_of_lt (by omega)
    · intro x y hx hy hne
      apply getD_set_other
      unfold cellOffset
      simp only [MATRIX_SIZE]
      omega
  · intro hnin
    have hout : outsideGrid (movedHead g.snakeDirection g.snakeHead) = true := by
      rw [outsideGrid_eq_true]
      omega
    rw [hout] at hgrid
    simpa using hgrid
  · rw [hgrid]
    split_ifs
    · exact hlen
    · unfold writeMatrix
      rw [List.length_set, hlen]
  · simp only [updateSnakeHeadPosition, checkSnakeAteHimself]
    split_ifs <;> rfl

/-- Witness of C15: after `initGame` the step to the right stamps 4 at (5, 3). -/
theorem head_stamp_guarded_witness :
    (updateSnakeHeadPosition 0 (initGame 4 0 bootGame)).gameMatrix.getD (cellOffset 5 3) 0 = 4 :=
  ((head_stamp_guarded 0 (initGame 4 0 bootGame) rfl).1 (by decide)).2.1 (by decide)

/-- C16. Aging pass: `updateSnakeWholeBody` replaces every nonzero cell value `v` by `v - 1`
and leaves every zero cell at 0; it makes one `setLed` call per cell, lit exactly when the
new value of the cell is nonzero; on an all-zero grid any number of applications leaves the
game object as it is. -/
theorem aging_pass (g : Game) :
    (∀ x y : Nat, x < 8 → y < 8 →
      ((updateSnakeWholeBody g).gameMatrix.getD (cellOffset x y) 0 =
          if g.gameMatrix.getD (cellOffset x y) 0 ≠ 0 then g.gameMatrix.getD (cellOffset x y) 0 - 1
          else 0) ∧
        (g.gameMatrix.getD (cellOffset x y) 0 = 0 →
          (updateSnakeWholeBody g).gameMatrix.getD (cellOffset x y) 0 = 0)) ∧
    (∀ (x y : Nat) (b : Bool), (x, y, b) ∈ updateSnakeWholeBodyLeds g ↔
      x < 8 ∧ y < 8 ∧
        b = decide ((updateSnakeWholeBody g).gameMatrix.getD (cellOffset x y) 0 ≠ 0)) ∧
    (updateSnakeWholeBodyLeds g).length = 64 ∧
    ((∀ v ∈ g.gameMatrix, v = 0) →
      ∀ n : Nat, Nat.iterate updateSnakeWholeBody n g = g) ∧
    updateSnakeWholeBody g = { g with gameMatrix := (updateSnakeWholeBody g).gameMatrix } := by
  have hcell : ∀ i : Nat, (updateSnakeWholeBody g).gameMatrix.getD i 0 =
      ageCell (g.gameMatrix.getD i 0) := fun i => getD_map_ageCell g.gameMatrix i
  refine ⟨?_, ?_, ?_, ?_, rfl⟩
  · intro x y _ _
    rw [hcell]
    constructor
    · generalize g.gameMatrix.getD (cellOffset x y) 0 = v
      unfold ageCell
      split_ifs <;> omega
    · intro h0
      rw [h0]
      rfl
  · intro x y b
    simp only [updateSnakeWholeBodyLeds, List.mem_flatMap, List.mem_map, List.mem_range,
      Prod.mk.injEq, MATRIX_SIZE]
    constructor
    · rintro ⟨i, hi, j, hj, hix, hjy, hb⟩
      subst hix
      subst hjy
      refine ⟨hi, hj, ?_⟩
      rw [← hb, hcell, readMatrix_inside 0 _ _ _ hi hj]
      simp [Nat.pos_iff_ne_zero]
    · rintro ⟨hx, hy, hb⟩
      refine ⟨x, hx, y, hy, rfl, rfl, ?_⟩
      rw [hb, hcell, readMatrix_inside 0 _ _ _ hx hy]
      simp [Nat.pos_iff_ne_zero]
  · simp only [updateSnakeWholeBodyLeds, MATRIX_SIZE, List.length_flatMap, List.length_map,
      List.length_range]
    rfl
  · intro hz n
    apply Function.iterate_fixed
    have hm : g.gameMatrix.map ageCell = g.gameMatrix := by
      conv_rhs => rw [← List.map_id g.gameMatrix]
      apply List.map_congr_left
      intro v hv
      rw [hz v hv]
      rfl
    unfold updateSnakeWholeBody
    rw [hm]

/-- Witness of C16: on the all-zero grid of the freshly constructed game object three
aging passes change nothing. -/
theorem aging_pass_witness :
    Nat.iterate updateSnakeWholeBody 3 bootGame = bootGame :=
  (aging_pass bootGame).2.2.2.1 (by decide) 3

/-- C17. Direction latch: `checkSnakeChangedDirection` sets `snakeDirection` to the
requested direction `r` when exactly one axis is deflected (toward `r`, the other centred)
and `r` is not the reverse of `lastSnakeDirection`; in every other case `snakeDirection` is
unchanged.  With last direction RIGHT a LEFT request changes nothing while UP and DOWN are
accepted.  The function then stores the resulting direction in `lastSnakeDirection`. -/
theorem direction_latch (x : XDirection) (y : YDirection) (g : Game) :
    (checkSnakeChangedDirection x y g).snakeDirection =
      (match requestedDirection x y with
        | some r => if opposite r g.lastSnakeDirection = true then g.snakeDirection else r
        | none => g.snakeDirection) ∧
    (g.lastSnakeDirection = Direction.RIGHT →
      (checkSnakeChangedDirection XDirection.LEFT YDirection.MIDDLE g).snakeDirection =
          g.snakeDirection ∧
        (checkSnakeChangedDirection XDirection.MIDDLE YDirection.UP g).snakeDirection =
          Direction.UP ∧
        (checkSnakeChangedDirection XDirection.MIDDLE YDirection.DOWN g).snakeDirection =
          Direction.DOWN) ∧
    (checkSnakeChangedDirection x y g).lastSnakeDirection =
      (checkSnakeChangedDirection x y g).snakeDirection ∧
    checkSnakeChangedDirection x y g =
      { g with
        snakeDirection := (checkSnakeChangedDirection x y g).snakeDirection
        lastSnakeDirection := (checkSnakeChangedDirection x y g).snakeDirection } := by
  refine ⟨?_, ?_, ?_, ?_⟩
  · cases x <;> cases y <;> cases hl : g.lastSnakeDirection <;>
      simp [checkSnakeChangedDirection, requestedDirection, opposite, hl]
  · intro hl
    simp [checkSnakeChangedDirection, hl]
  · simp only [checkSnakeChangedDirection]
  · simp only [checkSnakeChangedDirection]
    split_ifs <;> rfl

/-- Witness of C17: after `initGame` from the fresh game object (last direction RIGHT) a
LEFT request leaves the direction RIGHT and an UP request is accepted. -/
theorem direction_latch_witness :
    (checkSnakeChangedDirection XDirection.LEFT YDirection.MIDDLE
        (initGame 4 0 bootGame)).snakeDirection = Direction.RIGHT ∧
      (checkSnakeChangedDirection XDirection.MIDDLE YDirection.UP
        (initGame 4 0 bootGame)).snakeDirection = Direction.UP :=
  ⟨((direction_latch XDirection.LEFT YDirection.MIDDLE (initGame 4 0 bootGame)).2.1 rfl).1,
    ((direction_latch XDirection.MIDDLE YDirection.UP (initGame 4 0 bootGame)).2.1 rfl).2.1⟩

/-! ## Scenario, session reset and ended game: claims -/

/-- C18 (as stated, refuted). In the scenario (state of `initGame`, food at (5, 3)) the
movement tick fires, and after it the previously occupied cells (5, 0), (5, 1), (5, 2) hold
1, 2, 3 as before, not their previous values incremented by 1. -/
theorem scenario_cells_not_incremented :
    moveGateOpen 400 scenarioStart = true ∧
      (scenarioStart.gameMatrix.getD (cellOffset 5 0) 0 = 1 ∧
        scenarioStart.gameMatrix.getD (cellOffset 5 1) 0 = 2 ∧
        scenarioStart.gameMatrix.getD (cellOffset 5 2) 0 = 3) ∧
      ((updateSnakePosition 0 400 400 scenarioStart).gameMatrix.getD (cellOffset 5 0) 0 = 1 ∧
        (updateSnakePosition 0 400 400 scenarioStart).gameMatrix.getD (cellOffset 5 1) 0 = 2 ∧
        (updateSnakePosition 0 400 400 scenarioStart).gameMatrix.getD (cellOffset 5 2) 0 = 3) ∧
      (updateSnakePosition 0 400 400 scenarioStart).gameMatrix.getD (cellOffset 5 0) 0 ≠
        scenarioStart.gameMatrix.getD (cellOffset 5 0) 0 + 1 := by
  decide

/-- C18 (amended). End-to-end scenario: from the state produced by `initGame` with the food
at (5, 3), one firing of `updateSnakePosition` leaves the head at (5, 3), the food eaten
(the moved head met the food, `lastSnakeEatTimestamp` is the clock value), `snakeLength` 4,
the food unset, the new head cell at 4 and the previously occupied cells (5, 0), (5, 1),
(5, 2) at 1, 2, 3 as before: `checkSnakeAteFood` has incremented them to 2, 3, 4 and the
aging pass of the same tick has decremented them again. -/
theorem scenario_tick (difficulty now oob tMove tEat : Nat) (g0 : Game)
    (hopen : moveGateOpen tMove (latched Direction.RIGHT ⟨5, 3⟩ (initGame difficulty now g0))
      = true) :
    (updateSnakePosition oob tMove tEat
        (latched Direction.RIGHT ⟨5, 3⟩ (initGame difficulty now g0))).snakeHead = ⟨5, 3⟩ ∧
    (updateSnakeHeadPosition oob
        (latched Direction.RIGHT ⟨5, 3⟩ (initGame difficulty now g0))).snakeHead =
      (latched Direction.RIGHT ⟨5, 3⟩ (initGame difficulty now g0)).food ∧
    (updateSnakePosition oob tMove tEat
        (latched Direction.RIGHT ⟨5, 3⟩ (initGame difficulty now g0))).lastSnakeEatTimestamp
      = tEat ∧
    (updateSnakePosition oob tMove tEat
        (latched Direction.RIGHT ⟨5, 3⟩ (initGame difficulty now g0))).snakeLength = 4 ∧
    (updateSnakePosition oob tMove tEat
        (latched Direction.RIGHT ⟨5, 3⟩ (initGame difficulty now g0))).food = ⟨255, 255⟩ ∧
    ((checkSnakeAteFood tEat (updateSnakeHeadPosition oob
        (latched Direction.RIGHT ⟨5, 3⟩ (initGame difficulty now g0)))).gameMatrix.getD
          (cellOffset 5 0) 0 = 2 ∧
      (checkSnakeAteFood tEat (updateSnakeHeadPosition oob
        (latched Direction.RIGHT ⟨5, 3⟩ (initGame difficulty now g0)))).gameMatrix.getD
          (cellOffset 5 1) 0 = 3 ∧
      (checkSnakeAteFood tEat (updateSnakeHeadPosition oob
        (latched Direction.RIGHT ⟨5, 3⟩ (initGame difficulty now g0)))).gameMatrix.getD
          (cellOffset 5 2) 0 = 4) ∧
    ((updateSnakePosition oob tMove tEat
        (latched Direction.RIGHT ⟨5, 3⟩ (initGame difficulty now g0))).gameMatrix.getD
          (cellOffset 5 0) 0 = 1 ∧
      (updateSnakePosition oob tMove tEat
        (latched Direction.RIGHT ⟨5, 3⟩ (initGame difficulty now g0))).gameMatrix.getD
          (cellOffset 5 1) 0 = 2 ∧
      (updateSnakePosition oob tMove tEat
        (latched Direction.RIGHT ⟨5, 3⟩ (initGame difficulty now g0))).gameMatrix.getD
          (cellOffset 5 2) 0 = 3 ∧
      (updateSnakePosition oob tMove tEat
        (latched Direction.RIGHT ⟨5, 3⟩ (initGame difficulty now g0))).gameMatrix.getD
          (cellOffset 5 3) 0 = 4) ∧
    occupancy (updateSnakePosition oob tMove tEat
        (latched Direction.RIGHT ⟨5, 3⟩ (initGame difficulty now g0))).gameMatrix = 4 := by
  have hstep : updateSnakePosition oob tMove tEat
      (latched Direction.RIGHT ⟨5, 3⟩ (initGame difficulty now g0)) =
      { updateSnakeWholeBody (checkSnakeAteFood tEat (updateSnakeHeadPosition oob
          (latched Direction.RIGHT ⟨5, 3⟩ (initGame difficulty now g0)))) with
        lastPositionUpdateTimestamp := tMove } := by
    simp only [updateSnakePosition, hopen, if_true]
  have hmid : (checkSnakeAteFood tEat (updateSnakeHeadPosition oob
      (latched Direction.RIGHT ⟨5, 3⟩ (initGame difficulty now g0)))).gameMatrix =
      (checkSnakeAteFood 0 (updateSnakeHeadPosition 0 scenarioStart)).gameMatrix := rfl
  have hend : (updateSnakePosition oob tMove tEat
      (latched Direction.RIGHT ⟨5, 3⟩ (initGame difficulty now g0))).gameMatrix =
      (updateSnakeWholeBody
        (checkSnakeAteFood 0 (updateSnakeHeadPosition 0 scenarioStart))).gameMatrix := by
    rw [hstep]
    show List.map ageCell _ = List.map ageCell _
    rw [hmid]
  rw [hend, hmid, hstep]
  refine ⟨rfl, rfl, rfl, rfl, rfl, by decide, by decide, by decide⟩

/-- Witness of C18 (amended): the scenario at difficulty 4 with the tick at 400 ms. -/
theorem scenario_tick_witness :
    (updateSnakePosition 0 400 400 scenarioStart).snakeHead = ⟨5, 3⟩ ∧
      (updateSnakePosition 0 400 400 scenarioStart).snakeLength = 4 ∧
      (updateSnakePosition 0 400 400 scenarioStart).food = ⟨255, 255⟩ :=
  ⟨(scenario_tick 4 0 0 400 400 bootGame (by decide)).1,
    (scenario_tick 4 0 0 400 400 bootGame (by decide)).2.2.2.1,
    (scenario_tick 4 0 0 400 400 bootGame (by decide)).2.2.2.2.1⟩

/-- C19. Session reset: from every prior state `initGame` yields a grid of 64 cells that is
0 everywhere except `gameMatrix[5][0] = 1`, `gameMatrix[5][1] = 2`, `gameMatrix[5][2] = 3`,
with `snakeLength = 3`, `snakeHead = (5, 2)`, `snakeDirection = RIGHT`,
`snakeNumberOfLives = 3` and `lostALife = false`; exactly 3 cells are occupied and the head
cell holds the highest value. -/
theorem session_reset (difficulty now : Nat) (g : Game) :
    (initGame difficulty now g).gameMatrix.length = 64 ∧
    (∀ x y : Nat, x < 8 → y < 8 →
      (initGame difficulty now g).gameMatrix.getD (cellOffset x y) 0 =
        if x = 5 ∧ y ≤ 2 then y + 1 else 0) ∧
    (initGame difficulty now g).snakeLength = 3 ∧
    (initGame difficulty now g).snakeHead = ⟨5, 2⟩ ∧
    (initGame difficulty now g).snakeDirection = Direction.RIGHT ∧
    (initGame difficulty now g).snakeNumberOfLives = 3 ∧
    (initGame difficulty now g).lostALife = false ∧
    occupancy (initGame difficulty now g).gameMatrix = 3 ∧
    (initGame difficulty now g).gameMatrix.getD
      (cellOffset (initGame difficulty now g).snakeHead.x
        (initGame difficulty now g).snakeHead.y) 0 = 3 ∧
    (∀ i : Nat, i < 64 → (initGame difficulty now g).gameMatrix.getD i 0 ≤ 3) := by
  have hm : (initGame difficulty now g).gameMatrix = (initGame 0 0 bootGame).gameMatrix := rfl
  have hh : (initGame difficulty now g).snakeHead = ⟨5, 2⟩ := rfl
  have hcells : ∀ x : Nat, x < 8 → ∀ y : Nat, y < 8 →
      (initGame 0 0 bootGame).gameMatrix.getD (cellOffset x y) 0 =
        if x = 5 ∧ y ≤ 2 then y + 1 else 0 := by
    decide
  rw [hh, hm]
  refine ⟨rfl, fun x y hx hy => hcells x hx y hy, rfl, rfl, rfl, rfl, rfl, rfl, rfl,
    by decide⟩

/-- C20. Frozen after end: when `hasGameEnded` is true on entry, the call of `play()`
returns and leaves `gameMatrix`, `snakeLength`, `snakeHead`, `snakeDirection`, `food` and
`snakeNumberOfLives` unchanged, for every joystick input, switch state and clock value. -/
theorem frozen_after_end (difficulty : Nat) (inp : TickInput) (g : Game)
    (he : g.hasGameEnded = true) :
    ∃ r : PlayResult, play difficulty inp g = some r ∧
      r.game.gameMatrix = g.gameMatrix ∧ r.game.snakeLength = g.snakeLength ∧
      r.game.snakeHead = g.snakeHead ∧ r.game.snakeDirection = g.snakeDirection ∧
      r.game.food = g.food ∧ r.game.snakeNumberOfLives = g.snakeNumberOfLives := by
  simp only [play, he, if_true]
  split_ifs <;> exact ⟨_, rfl, rfl, rfl, rfl, rfl, rfl, rfl⟩

/-- Witness of C20: the ended state reached by checking `wallExit`, with the switch
pressed. -/
theorem frozen_after_end_witness :
    ∃ r : PlayResult,
      play 4 (tickDraw 7020 true []) (checkIfGameHasEnded wallExit) = some r ∧
      r.game.gameMatrix = (checkIfGameHasEnded wallExit).gameMatrix ∧
      r.game.snakeLength = (checkIfGameHasEnded wallExit).snakeLength ∧
      r.game.snakeHead = (checkIfGameHasEnded wallExit).snakeHead ∧
      r.game.snakeDirection = (checkIfGameHasEnded wallExit).snakeDirection ∧
      r.game.food = (checkIfGameHasEnded wallExit).food ∧
      r.game.snakeNumberOfLives = (checkIfGameHasEnded wallExit).snakeNumberOfLives :=
  frozen_after_end 4 (tickDraw 7020 true []) (checkIfGameHasEnded wallExit) (by decide)

/-! ## Speed and highscores: claims -/

/-- C22. Speed for difficulty: for every difficulty `d` in `[1, 4]` the tick interval set by
`initGame` is `1600 - 400 * (d - 1)`, that is 1600, 1200, 800, 400 ms; it is strictly
decreasing in `d` and stays within `[400, 1600]`. -/
theorem speed_for_difficulty (difficulty now : Nat) (g : Game)
    (hd : 1 ≤ difficulty ∧ difficulty ≤ 4) :
    (initGame difficulty now g).snakeSpeed = 1600 - 400 * ((difficulty : Int) - 1) ∧
    (400 ≤ (initGame difficulty now g).snakeSpeed ∧
      (initGame difficulty now g).snakeSpeed ≤ 1600) ∧
    ((initGame 1 now g).snakeSpeed = 1600 ∧ (initGame 2 now g).snakeSpeed = 1200 ∧
      (initGame 3 now g).snakeSpeed = 800 ∧ (initGame 4 now g).snakeSpeed = 400) ∧
    (∀ d' : Nat, difficulty < d' → d' ≤ 4 →
      (initGame d' now g).snakeSpeed < (initGame difficulty now g).snakeSpeed) := by
  obtain ⟨h1, h4⟩ := hd
  have hs : ∀ d : Nat, 1 ≤ d → d ≤ 4 →
      (initGame d now g).snakeSpeed = 1600 - 400 * ((d : Int) - 1) := by
    intro d hd1 hd4
    interval_cases d <;> rfl
  refine ⟨hs difficulty h1 h4, ?_, ⟨rfl, rfl, rfl, rfl⟩, ?_⟩
  · rw [hs difficulty h1 h4]
    omega
  · intro d' hlt hle
    rw [hs difficulty h1 h4, hs d' (by omega) hle]
    omega

/-- Witness of C22: difficulty 3 gives 800 ms. -/
theorem speed_for_difficulty_witness :
    (initGame 3 0 bootGame).snakeSpeed = 1600 - 400 * (((3 : Nat) : Int) - 1) :=
  (speed_for_difficulty 3 0 bootGame (by decide)).1

/-! ## Highscores: auxiliary facts -/

/-- A board of five entries, entry by entry. -/
theorem board_five (t : List HighscoresData) (h : t.length = 5) :
    ∃ a b c d e, t = [a, b, c, d, e] := by
  match t, h with
  | [a, b, c, d, e], _ => exact ⟨a, b, c, d, e, rfl⟩

/-- The place of a score on a five-entry board: the first entry with a lower score. -/
theorem getNewHighscorePlace_five (score : Int) (a b c d e : HighscoresData) :
    getNewHighscorePlace score [a, b, c, d, e] =
      if score > a.score then 0 else if score > b.score then 1 else if score > c.score then 2
      else if score > d.score then 3 else if score > e.score then 4 else 5 := by
  have h0 : (0 : Nat) < 5 := by decide
  have h1 : (1 : Nat) < 5 := by decide
  have h2 : (2 : Nat) < 5 := by decide
  have h3 : (3 : Nat) < 5 := by decide
  have h4 : (4 : Nat) < 5 := by decide
  have h5 : ¬ (5 : Nat) < 5 := by decide
  simp only [getNewHighscorePlace, placeLoop, NUMBER_OF_HIGHSCORES_SAVED, Nat.reduceAdd,
    h0, h1, h2, h3, h4, h5, if_true, if_false, List.getD_cons_zero, List.getD_cons_succ]

/-- The board after `updateHighscores`, case by case. -/
theorem updateHighscores_five (score : Int) (name : String) (a b c d e : HighscoresData) :
    updateHighscores score name [a, b, c, d, e] =
      if score > a.score then [⟨score, name⟩, a, b, c, d]
      else if score > b.score then [a, ⟨score, name⟩, b, c, d]
      else if score > c.score then [a, b, ⟨score, name⟩, c, d]
      else if score > d.score then [a, b, c, ⟨score, name⟩, d]
      else if score > e.score then [a, b, c, d, ⟨score, name⟩]
      else [a, b, c, d, e] := by
  unfold updateHighscores
  rw [getNewHighscorePlace_five]
  by_cases ha : score > a.score
  · simp only [ha, if_true]; rfl
  by_cases hb : score > b.score
  · simp only [ha, hb, if_true, if_false]; rfl
  by_cases hc : score > c.score
  · simp only [ha, hb, hc, if_true, if_false]; rfl
  by_cases hd : score > d.score
  · simp only [ha, hb, hc, hd, if_true, if_false]; rfl
  by_cases he : score > e.score
  · simp only [ha, hb, hc, hd, he, if_true, if_false]; rfl
  · simp only [ha, hb, hc, hd, he, if_false]; rfl


/-! ## Highscores: claims -/

/-- C23. Highscore order: when the five-entry board is ordered by non-increasing score, the
board after `updateHighscores(score, name)` has five entries and is ordered by
non-increasing score, for every score and name; the board of `resetHighscores` has five
entries and is so ordered. -/
theorem highscore_order (score : Int) (name : String) (t : List HighscoresData)
    (hlen : t.length = 5) (hord : orderedBoard t) :
    (updateHighscores score name t).length = 5 ∧ orderedBoard (updateHighscores score name t) ∧
      resetHighscores.length = 5 ∧ orderedBoard resetHighscores := by
  obtain ⟨a, b, c, d, e, rfl⟩ := board_five t hlen
  rw [updateHighscores_five]
  simp only [orderedBoard, List.map_cons, List.map_nil, List.pairwise_cons, List.mem_cons,
    List.mem_singleton, forall_eq_or_imp, forall_eq, List.not_mem_nil, false_implies,
    implies_true, List.Pairwise.nil, and_true] at hord
  refine ⟨?_, ?_, rfl, ?_⟩
  · split_ifs <;> rfl
  · split_ifs <;>
      simp only [orderedBoard, List.map_cons, List.map_nil, List.pairwise_cons, List.mem_cons,
        List.mem_singleton, forall_eq_or_imp, forall_eq, List.not_mem_nil, false_implies,
        implies_true, List.Pairwise.nil, and_true] <;> omega
  · simp [orderedBoard, resetHighscores]

/-- Witness of C23: a score of 500 on the board 900, 700, 500, 300, 0. -/
theorem highscore_order_witness :
    orderedBoard (updateHighscores 500 "ANA"
      [⟨900, "A"⟩, ⟨700, "B"⟩, ⟨500, "C"⟩, ⟨300, "D"⟩, ⟨0, "NO ONE"⟩]) :=
  (highscore_order 500 "ANA" [⟨900, "A"⟩, ⟨700, "B"⟩, ⟨500, "C"⟩, ⟨300, "D"⟩, ⟨0, "NO ONE"⟩] rfl
    (by simp [orderedBoard])).2.1

/-- C24. Highscore insertion: on a five-entry board `p = getNewHighscorePlace(score)` is the
first index whose stored score is strictly less than `score`, and 5 when there is none.
When `p = 5` `updateHighscores` leaves the board unchanged; otherwise the entries before
`p` are unchanged, entry `p` is `(score, name)` and the entries `p + 1 .. 4` are the old
entries `p .. 3`, the old last entry being dropped. -/
theorem highscore_insertion (score : Int) (name : String) (t : List HighscoresData)
    (hlen : t.length = 5) :
    getNewHighscorePlace score t ≤ 5 ∧
    (∀ i : Nat, i < getNewHighscorePlace score t → score ≤ (t.getD i ⟨0, ""⟩).score) ∧
    (getNewHighscorePlace score t < 5 →
      (t.getD (getNewHighscorePlace score t) ⟨0, ""⟩).score < score) ∧
    (getNewHighscorePlace score t = 5 → updateHighscores score name t = t) ∧
    (getNewHighscorePlace score t < 5 →
      (updateHighscores score name t).length = 5 ∧
      (∀ i : Nat, i < getNewHighscorePlace score t →
        (updateHighscores score name t).getD i ⟨0, ""⟩ = t.getD i ⟨0, ""⟩) ∧
      (updateHighscores score name t).getD (getNewHighscorePlace score t) ⟨0, ""⟩ =
        ⟨score, name⟩ ∧
      (∀ i : Nat, getNewHighscorePlace score t < i → i ≤ 4 →
        (updateHighscores score name t).getD i ⟨0, ""⟩ = t.getD (i - 1) ⟨0, ""⟩)) := by
  obtain ⟨a, b, c, d, e, rfl⟩ := board_five t hlen
  rw [updateHighscores_five, getNewHighscorePlace_five]
  by_cases ha : score > a.score
  · simp only [ha, if_true]
    refine ⟨by omega, fun i hi => by omega, fun _ => ha, fun h => by omega, fun _ => ⟨rfl, fun i hi => by omega, rfl, ?_⟩⟩
    intro i h1 h2
    interval_cases i <;> rfl
  by_cases hb : score > b.score
  · simp only [ha, hb, if_true, if_false]
    refine ⟨by omega, ?_, fun _ => hb, fun h => by omega, fun _ => ⟨rfl, ?_, rfl, ?_⟩⟩
    · intro i hi
      interval_cases i
      exact not_lt.1 ha
    · intro i hi
      interval_cases i
      rfl
    · intro i h1 h2
      interval_cases i <;> rfl
  by_cases hc : score > c.score
  · simp only [ha, hb, hc, if_true, if_false]
    refine ⟨by omega, ?_, fun _ => hc, fun h => by omega, fun _ => ⟨rfl, ?_, rfl, ?_⟩⟩
    · intro i hi
      interval_cases i
      · exact not_lt.1 ha
      · exact not_lt.1 hb
    · intro i hi
      interval_cases i <;> rfl
    · intro i h1 h2
      interval_cases i <;> rfl
  by_cases hd : score > d.score
  · simp only [ha, hb, hc, hd, if_true, if_false]
    refine ⟨by omega, ?_, fun _ => hd, fun h => by omega, fun _ => ⟨rfl, ?_, rfl, ?_⟩⟩
    · intro i hi
      interval_cases i
      · exact not_lt.1 ha
      · exact not_lt.1 hb
      · exact not_lt.1 hc
    · intro i hi
      interval_cases i <;> rfl
    · intro i h1 h2
      interval_cases i
      rfl
  by_cases he : score > e.score
  · simp only [ha, hb, hc, hd, he, if_true, if_false]
    refine ⟨by omega, ?_, fun _ => he, fun h => by omega, fun _ => ⟨rfl, ?_, rfl, ?_⟩⟩
    · intro i hi
      interval_cases i
      · exact not_lt.1 ha
      · exact not_lt.1 hb
      · exact not_lt.1 hc
      · exact not_lt.1 hd
    · intro i hi
      interval_cases i <;> rfl
    · intro i h1 h2
      omega
  · simp only [ha, hb, hc, hd, he, if_false]
    refine ⟨by omega, ?_, fun h => by omega, fun _ => trivial, fun h => by omega⟩
    intro i hi
    interval_cases i
    · exact not_lt.1 ha
    · exact not_lt.1 hb
    · exact not_lt.1 hc
    · exact not_lt.1 hd
    · exact not_lt.1 he

/-- Witness of C24: a score of 500 on the board 900, 700, 500, 300, 0 takes place 3, after
the entry it ties. -/
theorem highscore_insertion_witness :
    getNewHighscorePlace 500
        [⟨900, "A"⟩, ⟨700, "B"⟩, ⟨500, "C"⟩, ⟨300, "D"⟩, ⟨0, "NO ONE"⟩] = 3 ∧
      (updateHighscores 500 "ANA"
        [⟨900, "A"⟩, ⟨700, "B"⟩, ⟨500, "C"⟩, ⟨300, "D"⟩, ⟨0, "NO ONE"⟩]).getD 3 ⟨0, ""⟩ =
        ⟨500, "ANA"⟩ :=
  ⟨by decide,
    ((highscore_insertion 500 "ANA"
      [⟨900, "A"⟩, ⟨700, "B"⟩, ⟨500, "C"⟩, ⟨300, "D"⟩, ⟨0, "NO ONE"⟩] rfl).2.2.2.2
        (by decide)).2.2.1⟩

/-! ## Acknowledgement path: auxiliary facts -/

/-- The call of `play()` on a game that has ended. -/
theorem play_ended (difficulty : Nat) (inp : TickInput) (g : Game)
    (he : g.hasGameEnded = true) :
    play difficulty inp g =
      if inp.switchPressed = true then
        some
          { game := { g with hasGameEnded := false, inTransition := true }
            running := false
            savedScore := some (getGameScoreValue difficulty g.snakeLength)
            moved := none }
      else
        some
          { game := if g.inTransition = true then { g with inTransition := false } else g
            running := true
            savedScore := none
            moved := none } := by
  simp only [play, he, if_true]
  split_ifs <;> rfl

/-- The game object a call of `play()` on a running game hands to the food test: after the
start transition with `initGame` (when `inTransition` is set), the starvation check and the
end check. -/
theorem play_running (difficulty : Nat) (inp : TickInput) (g : Game)
    (he : g.hasGameEnded = false) :
    (∀ r : PlayResult, play difficulty inp g = some r →
      r.running = true ∧ r.savedScore = none) ∧
    ((∃ g4 : Game,
        (if (checkIfGameHasEnded (checkSnakeStarvationStatus inp.tStarve
              (if g.inTransition = true then
                initGame difficulty inp.tInit { g with inTransition := false }
              else g))).food.x = ASKING_FOR_NEW_FOOD_VALUE ∨
            (checkIfGameHasEnded (checkSnakeStarvationStatus inp.tStarve
              (if g.inTransition = true then
                initGame difficulty inp.tInit { g with inTransition := false }
              else g))).food.y = ASKING_FOR_NEW_FOOD_VALUE then
          generateNewFood inp.draws
            (checkIfGameHasEnded (checkSnakeStarvationStatus inp.tStarve
              (if g.inTransition = true then
                initGame difficulty inp.tInit { g with inTransition := false }
              else g)))
        else
          some (checkIfGameHasEnded (checkSnakeStarvationStatus inp.tStarve
              (if g.inTransition = true then
                initGame difficulty inp.tInit { g with inTransition := false }
              else g)))) = some g4) →
      ∃ r : PlayResult, play difficulty inp g = some r) := by
  simp only [play, he, Bool.false_eq_true, if_false]
  constructor
  · intro r hr
    split at hr
    · exact Option.noConfusion hr
    · have := (Option.some.inj hr).symm
      subst this
      exact ⟨rfl, rfl⟩
  · rintro ⟨g4, h4⟩
    rw [h4]
    exact ⟨_, rfl⟩

/-- The food and the grid that the food test of `play()` sees on a running game are those of
the game on entry, or of `initGame` when the session starts in this call. -/
theorem play_food_test_state (difficulty : Nat) (inp : TickInput) (g : Game) :
    (checkIfGameHasEnded (checkSnakeStarvationStatus inp.tStarve
        (if g.inTransition = true then
          initGame difficulty inp.tInit { g with inTransition := false }
        else g))).food = g.food ∧
    (checkIfGameHasEnded (checkSnakeStarvationStatus inp.tStarve
        (if g.inTransition = true then
          initGame difficulty inp.tInit { g with inTransition := false }
        else g))).gameMatrix =
      (if g.inTransition = true then initGame difficulty inp.tInit g else g).gameMatrix := by
  rw [(checkIfGameHasEnded_grid_food _).1, (checkIfGameHasEnded_grid_food _).2,
    (checkSnakeStarvationStatus_grid_food _ _).1, (checkSnakeStarvationStatus_grid_food _ _).2.1]
  split_ifs <;> exact ⟨rfl, rfl⟩

/-! ## Acknowledgement path: claims -/

set_option maxRecDepth 100000 in
/-- C21. The perfect game `feastTicks` ends in `fullGame`, a running game.  The next call of
`play()` is not an acknowledgement (the game had not ended on entry) and yet does not return
true: it does not return at all, for the input of the failing run and for every other. -/
theorem play_without_return :
    (playAll 4 feastTicks bootGame).map (fun r => r.1) = some fullGame ∧
      fullGame.hasGameEnded = false ∧
      (¬ ∃ r : PlayResult,
        play 4 (tickDraw 29400 false [(0, 0), (3, 3), (7, 7)]) fullGame = some r ∧
          r.running = true) ∧
      ∀ (difficulty : Nat) (inp : TickInput) (r : PlayResult),
        play difficulty inp fullGame ≠ some r := by
  have hfull : ∀ i : Nat, i < 64 → fullGame.gameMatrix.getD i 0 ≠ 0 := by decide
  refine ⟨by decide, rfl, ?_, ?_⟩
  · rintro ⟨r, hr, _⟩
    rw [play_full 4 _ fullGame rfl rfl rfl hfull] at hr
    exact Option.noConfusion hr
  · intro difficulty inp r hr
    rw [play_full difficulty inp fullGame rfl rfl rfl hfull] at hr
    exact Option.noConfusion hr

/-- Acknowledgement path on the calls that return: a call of `play()` that returns gives
false exactly when the game had ended on entry and the switch press is detected; that call
hands `getGameScoreValue(snakeLength)` and the player name to `updateHighscores` once and
leaves `hasGameEnded = false` and `inTransition = true`.  A call that returns true leaves the
highscore board unchanged.  A call on an ended game always returns; a call on a running game
returns when `generateNewFood` does (the food is set, or a draw falls on a free cell). -/
theorem acknowledgement_path (difficulty : Nat) (name : String) (inp : TickInput) (g : Game)
    (t : List HighscoresData) :
    (∀ r : PlayResult, play difficulty inp g = some r →
      (r.running = false ↔ g.hasGameEnded = true ∧ inp.switchPressed = true)) ∧
    (g.hasGameEnded = true → inp.switchPressed = true →
      ∃ r : PlayResult, play difficulty inp g = some r ∧ r.running = false ∧
        r.savedScore = some (getGameScoreValue difficulty g.snakeLength) ∧
        r.game.hasGameEnded = false ∧ r.game.inTransition = true ∧
        playWithBoard difficulty name inp g t =
          some (r, updateHighscores (getGameScoreValue difficulty g.snakeLength) name t)) ∧
    (g.hasGameEnded = true → inp.switchPressed = false →
      ∃ r : PlayResult, play difficulty inp g = some r ∧ r.running = true ∧
        playWithBoard difficulty name inp g t = some (r, t)) ∧
    (g.hasGameEnded = false →
      (∀ r : PlayResult, play difficulty inp g = some r →
        r.running = true ∧ playWithBoard difficulty name inp g t = some (r, t)) ∧
      (((g.food.x ≠ 255 ∧ g.food.y ≠ 255) ∨
          ∃ dr ∈ inp.draws,
            (if g.inTransition = true then initGame difficulty inp.tInit g
              else g).gameMatrix.getD (cellOffset (dr.1 % 8) (dr.2 % 8)) 0 = 0) →
        ∃ r : PlayResult, play difficulty inp g = some r)) := by
  refine ⟨?_, ?_, ?_, ?_⟩
  · intro r hr
    cases he : g.hasGameEnded
    · have := ((play_running difficulty inp g he).1 r hr).1
      rw [this]
      simp
    · rw [play_ended difficulty inp g he] at hr
      cases hs : inp.switchPressed
      · rw [hs] at hr
        have := (Option.some.inj hr).symm
        subst this
        simp
      · rw [hs] at hr
        have := (Option.some.inj hr).symm
        subst this
        simp
  · intro he hs
    have hp := play_ended difficulty inp g he
    rw [hs] at hp
    simp only [if_true] at hp
    refine ⟨_, hp, rfl, rfl, rfl, rfl, ?_⟩
    simp only [playWithBoard, hp]
  · intro he hs
    have hp := play_ended difficulty inp g he
    rw [hs] at hp
    simp only [Bool.false_eq_true, if_false] at hp
    refine ⟨_, hp, rfl, ?_⟩
    simp only [playWithBoard, hp]
  · intro he
    constructor
    · intro r hr
      obtain ⟨h1, h2⟩ := (play_running difficulty inp g he).1 r hr
      refine ⟨h1, ?_⟩
      simp only [playWithBoard, hr, h2]
    · intro h
      apply (play_running difficulty inp g he).2
      obtain ⟨hfood, hgrid⟩ := play_food_test_state difficulty inp g
      by_cases hc : (checkIfGameHasEnded (checkSnakeStarvationStatus inp.tStarve
          (if g.inTransition = true then
            initGame difficulty inp.tInit { g with inTransition := false }
          else g))).food.x = ASKING_FOR_NEW_FOOD_VALUE ∨
          (checkIfGameHasEnded (checkSnakeStarvationStatus inp.tStarve
            (if g.inTransition = true then
              initGame difficulty inp.tInit { g with inTransition := false }
            else g))).food.y = ASKING_FOR_NEW_FOOD_VALUE
      · rw [if_pos hc]
        rcases h with h | ⟨dr, hdr, hfree⟩
        · rw [hfood] at hc
          simp only [ASKING_FOR_NEW_FOOD_VALUE] at hc
          omega
        · apply generateNewFood_returns
          refine ⟨dr, hdr, ?_⟩
          rw [readMatrix_inside 0 _ _ _ (Nat.mod_lt _ (by decide)) (Nat.mod_lt _ (by decide)),
            hgrid]
          exact hfree
      · rw [if_neg hc]
        exact ⟨_, rfl⟩

/-- The acknowledgement path at a concrete input: on the ended game behind `wallExit` a call
with the switch pressed returns false and puts the score on the board. -/
theorem acknowledgement_path_witness :
    ∃ r : PlayResult,
      play 4 (tickDraw 7020 true []) (checkIfGameHasEnded wallExit) = some r ∧
        r.running = false ∧
        r.savedScore = some (getGameScoreValue 4 (checkIfGameHasEnded wallExit).snakeLength) ∧
        r.game.hasGameEnded = false ∧ r.game.inTransition = true ∧
        playWithBoard 4 "ANA" (tickDraw 7020 true []) (checkIfGameHasEnded wallExit)
            resetHighscores =
          some (r, updateHighscores
            (getGameScoreValue 4 (checkIfGameHasEnded wallExit).snakeLength) "ANA"
            resetHighscores) :=
  (acknowledgement_path 4 "ANA" (tickDraw 7020 true []) (checkIfGameHasEnded wallExit)
    resetHighscores).2.1 (by decide) rfl

/-! ## End conditions and the movement step: auxiliary facts -/

/-- With the head inside the grid and a length of at most 64 only the lives test of
`checkIfGameHasEnded` can fire. -/
theorem checkIfGameHasEnded_inside (g : Game) (hx : g.snakeHead.x < 8) (hy : g.snakeHead.y < 8)
    (hL : g.snakeLength ≤ 64) :
    checkIfGameHasEnded g =
      if g.snakeNumberOfLives ≤ 0 then { g with hasGameEnded := true, inTransition := true }
      else g := by
  have hout : outsideGrid g.snakeHead = false := (outsideGrid_eq_false _).2 ⟨hx, hy⟩
  have hlen : ¬ g.snakeLength > 8 * 8 := by omega
  unfold checkIfGameHasEnded
  simp only [MATRIX_SIZE, hout, Bool.false_eq_true, if_false, hlen]

theorem checkSnakeStarvationStatus_frame (now : Nat) (g : Game) :
    (checkSnakeStarvationStatus now g).snakeHead = g.snakeHead ∧
      (checkSnakeStarvationStatus now g).snakeLength = g.snakeLength ∧
      (checkSnakeStarvationStatus now g).hasGameEnded = g.hasGameEnded ∧
      (checkSnakeStarvationStatus now g).snakeNumberOfLives ≥ g.snakeNumberOfLives - 1 := by
  unfold checkSnakeStarvationStatus
  split_ifs
  · exact ⟨rfl, rfl, rfl, le_refl _⟩
  · exact ⟨rfl, rfl, rfl, by omega⟩

/-! ## End conditions and the movement step: claims -/

/-- C26. Starvation ends the game only at zero lives, and then in the same tick: on a game
not yet ended with the head inside the grid and `snakeLength ≤ 64`,
`checkSnakeStarvationStatus` followed by `checkIfGameHasEnded` leaves `hasGameEnded` true
exactly when the lives after the starvation step are not positive, which for a game that
had a life left on entry means exactly 0; lives of 1 or 2 after the step do not end the
game. -/
theorem starvation_ends_at_zero_lives (now : Nat) (g : Game) (hne : g.hasGameEnded = false)
    (hin : g.snakeHead.x < 8 ∧ g.snakeHead.y < 8) (hL : g.snakeLength ≤ 64) :
    ((checkIfGameHasEnded (checkSnakeStarvationStatus now g)).hasGameEnded = true ↔
      (checkSnakeStarvationStatus now g).snakeNumberOfLives ≤ 0) ∧
    (1 ≤ g.snakeNumberOfLives →
      ((checkIfGameHasEnded (checkSnakeStarvationStatus now g)).hasGameEnded = true ↔
        (checkSnakeStarvationStatus now g).snakeNumberOfLives = 0)) ∧
    ((checkSnakeStarvationStatus now g).snakeNumberOfLives = 1 ∨
        (checkSnakeStarvationStatus now g).snakeNumberOfLives = 2 →
      (checkIfGameHasEnded (checkSnakeStarvationStatus now g)).hasGameEnded = false) ∧
    ((checkSnakeStarvationStatus now g).snakeNumberOfLives = 0 →
      (checkIfGameHasEnded (checkSnakeStarvationStatus now g)).hasGameEnded = true ∧
        (checkIfGameHasEnded (checkSnakeStarvationStatus now g)).inTransition = true) := by
  obtain ⟨h1, h2, h3, h4⟩ := checkSnakeStarvationStatus_frame now g
  have hend := checkIfGameHasEnded_inside (checkSnakeStarvationStatus now g)
    (by rw [h1]; exact hin.1) (by rw [h1]; exact hin.2) (by rw [h2]; exact hL)
  have hiff : (checkIfGameHasEnded (checkSnakeStarvationStatus now g)).hasGameEnded = true ↔
      (checkSnakeStarvationStatus now g).snakeNumberOfLives ≤ 0 := by
    rw [hend]
    split_ifs with hl
    · simp [hl]
    · simp [h3, hne, hl]
  refine ⟨hiff, ?_, ?_, ?_⟩
  · intro hpos
    rw [hiff]
    omega
  · intro hl
    cases hc : (checkIfGameHasEnded (checkSnakeStarvationStatus now g)).hasGameEnded
    · rfl
    · have := hiff.1 hc
      omega
  · intro hl
    rw [hend, if_pos (by omega)]
    exact ⟨rfl, rfl⟩

/-- Witness of C26: with one life left after `initGame`, the starvation at 20000 ms ends the
game in the same pair of checks. -/
theorem starvation_ends_at_zero_lives_witness :
    (checkIfGameHasEnded (checkSnakeStarvationStatus 20000
      { initGame 4 0 bootGame with snakeNumberOfLives := 1 })).hasGameEnded = true :=
  ((starvation_ends_at_zero_lives 20000 { initGame 4 0 bootGame with snakeNumberOfLives := 1 }
    rfl (by decide) (by decide)).2.2.2 (by decide)).1

/-- C27. On `fullGame` the snake has reached the max length (`snakeLength = 64 =
MAX_SNAKE_LENGTH`), the head is inside the grid and 3 lives remain, and
`checkIfGameHasEnded` does not mark the game as ended: its test is `snakeLength > 64`.  The
same game with length 65 is marked. -/
theorem max_length_not_flagged :
    fullGame.snakeLength = MAX_SNAKE_LENGTH ∧ fullGame.snakeLength = 64 ∧
      outsideGrid fullGame.snakeHead = false ∧ fullGame.snakeNumberOfLives = 3 ∧
      fullGame.hasGameEnded = false ∧
      (checkIfGameHasEnded fullGame).hasGameEnded = false ∧
      checkIfGameHasEnded fullGame = fullGame ∧
      (checkIfGameHasEnded { fullGame with snakeLength := 65 }).hasGameEnded = true := by
  decide

/-- C28. On `wallTicks` the game is running after five calls of `play()` with the head at
(5, 7); the sixth call runs a movement step, in which `checkSnakeAteHimself` reads
`gameMatrix[5][8]`: the column index is outside `[0, 7]` (the byte read is the one of
`gameMatrix[6][0]`).  The head (5, 8) of that step is outside the grid. -/
theorem self_check_reads_outside_grid :
    (playAll 4 (wallTicks.take 5) bootGame).map
        (fun r => (r.1.hasGameEnded, r.1.snakeHead)) = some (false, ⟨5, 7⟩) ∧
      ((playAll 4 (wallTicks.take 5) bootGame).bind
          (fun r => movementInput 4 (tickDraw 7000 false []) r.1)).map
        (fun g => (moveGateOpen 7000 g, selfCheckIndices g, outsideGrid (selfCheckIndices g),
          cellOffset (selfCheckIndices g).x (selfCheckIndices g).y)) =
        some (true, ⟨5, 8⟩, true, cellOffset 6 0) ∧
      (playAll 4 wallTicks bootGame).map (fun r => (r.1.snakeHead, r.2.length)) =
        some (⟨5, 8⟩, 6) :=
  ⟨rfl, rfl, rfl⟩

/-- C30. After the first game of `staleTicks` and the switch press, the game object waits
for a new session with `lastSnakeDirection = LEFT` and the food at (0, 0), and `initGame`
keeps both, where from the freshly constructed object it gives RIGHT and the unset food.
The first call of `play()` of the session, with the joystick held LEFT at 10000 ms, then
applies LEFT and ends the game at once; from the fresh object the same call applies
RIGHT and the game goes on. -/
theorem session_depends_on_previous :
    (playAll 4 staleTicks bootGame).map
        (fun r => (r.1.hasGameEnded, r.1.inTransition,
          (initGame 4 10000 r.1).lastSnakeDirection, (initGame 4 10000 r.1).food)) =
      some (false, true, Direction.LEFT, ⟨0, 0⟩) ∧
    ((initGame 4 10000 bootGame).lastSnakeDirection, (initGame 4 10000 bootGame).food) =
      (Direction.RIGHT, ⟨255, 255⟩) ∧
    (playAll 4 (staleTicks ++ [tickAt XDirection.LEFT YDirection.MIDDLE 10000]) bootGame).map
        (fun r => (r.1.hasGameEnded, r.2.getLast?)) = some (true, some Direction.LEFT) ∧
    (playAll 4 [tickAt XDirection.LEFT YDirection.MIDDLE 10000] bootGame).map
        (fun r => (r.1.hasGameEnded, r.2.getLast?)) = some (false, some Direction.RIGHT) :=
  ⟨rfl, rfl, rfl, rfl⟩

/-! ## The body of the snake in the grid: auxiliary facts -/

/-- In a list whose nonzero entries are pairwise distinct, two positions holding the same
nonzero value are the same position. -/
theorem getD_inj_of_nodup_filter (m : List Nat) :
    (m.filter nonzero).Nodup → ∀ i j : Nat, i < m.length → j < m.length →
      m.getD i 0 = m.getD j 0 → m.getD i 0 ≠ 0 → i = j := by
  induction m with
  | nil => intro _ i j hi; simp at hi
  | cons a t ih =>
    intro hnd i j hi hj heq hne
    have htail : (t.filter nonzero).Nodup := by
      rw [List.filter_cons] at hnd
      split_ifs at hnd
      · exact (List.nodup_cons.1 hnd).2
      · exact hnd
    cases i with
    | zero =>
      cases j with
      | zero => rfl
      | succ j' =>
        exfalso
        simp only [List.getD_cons_zero, List.getD_cons_succ] at heq hne
        have hj' : j' < t.length := by simpa using hj
        have hmem : a ∈ t.filter nonzero := by
          rw [List.mem_filter]
          refine ⟨?_, by simp [nonzero, hne]⟩
          rw [heq, List.getD_eq_getElem _ _ hj']
          exact List.getElem_mem hj'
        rw [List.filter_cons, if_pos (by simp [nonzero, hne])] at hnd
        exact (List.nodup_cons.1 hnd).1 hmem
    | succ i' =>
      cases j with
      | zero =>
        exfalso
        simp only [List.getD_cons_zero, List.getD_cons_succ] at heq hne
        have hi' : i' < t.length := by simpa using hi
        have ha : a ≠ 0 := by rw [← heq]; exact hne
        have hmem : a ∈ t.filter nonzero := by
          rw [List.mem_filter]
          refine ⟨?_, by simp [nonzero, ha]⟩
          rw [← heq, List.getD_eq_getElem _ _ hi']
          exact List.getElem_mem hi'
        rw [List.filter_cons, if_pos (by simp [nonzero, ha])] at hnd
        exact (List.nodup_cons.1 hnd).1 hmem
      | succ j' =>
        simp only [List.getD_cons_succ] at heq hne
        have := ih htail i' j' (by simpa using hi) (by simpa using hj) heq hne
        omega

/-- In an encoded grid no cell holds more than `snakeLength`. -/
theorem encoded_bound (g : Game) (hE : Encoded g) (i : Nat) :
    g.gameMatrix.getD i 0 ≤ g.snakeLength := by
  by_cases h0 : g.gameMatrix.getD i 0 = 0
  · omega
  · have hi : i < g.gameMatrix.length := by
      by_contra hc
      exact h0 (List.getD_eq_default _ _ (by omega))
    have hmem : g.gameMatrix.getD i 0 ∈ g.gameMatrix.filter nonzero := by
      rw [List.mem_filter]
      refine ⟨?_, decide_eq_true h0⟩
      rw [List.getD_eq_getElem _ _ hi]
      exact List.getElem_mem hi
    have := (hE.2.mem_iff).1 hmem
    rw [List.mem_range'_1] at this
    omega

/-- In an encoded grid a nonzero value sits in one cell only. -/
theorem encoded_inj (g : Game) (hE : Encoded g) (i j : Nat) (hi : i < 64) (hj : j < 64)
    (heq : g.gameMatrix.getD i 0 = g.gameMatrix.getD j 0) (hne : g.gameMatrix.getD i 0 ≠ 0) :
    i = j := by
  have hlen : g.gameMatrix.length = 64 := hE.1
  have hnd : (g.gameMatrix.filter nonzero).Nodup :=
    (hE.2.nodup_iff).2 (List.nodup_range' 1 g.snakeLength)
  exact getD_inj_of_nodup_filter g.gameMatrix hnd i j (by omega) (by omega) heq hne

/-- In an encoded grid every value from 1 to `snakeLength` sits in some cell. -/
theorem encoded_surj (g : Game) (hE : Encoded g) (v : Nat) (h1 : 1 ≤ v)
    (hv : v ≤ g.snakeLength) : ∃ i : Nat, i < 64 ∧ g.gameMatrix.getD i 0 = v := by
  have hlen : g.gameMatrix.length = 64 := hE.1
  have hmem : v ∈ g.gameMatrix.filter nonzero := by
    rw [hE.2.mem_iff, List.mem_range'_1]
    omega
  obtain ⟨n, hn, hnv⟩ := List.mem_iff_getElem.1 (List.mem_of_mem_filter hmem)
  exact ⟨n, by omega, by rw [List.getD_eq_getElem _ _ hn, hnv]⟩

theorem getD_map_growCell (m : List Nat) (i : Nat) :
    (m.map growCell).getD i 0 = growCell (m.getD i 0) :=
  List.getD_map m 0 growCell

/-- The cell of the moved head is an orthogonal neighbour of the cell of the head, when
both are inside the grid. -/
theorem adjacent_movedHead (d : Direction) (p : Point2D) (hx : p.x < 8) (hy : p.y < 8)
    (hin : outsideGrid (movedHead d p) = false) :
    adjacentCells (cellOffset p.x p.y) (cellOffset (movedHead d p).x (movedHead d p).y)
      = true := by
  have hq := (outsideGrid_eq_false _).1 hin
  cases d <;>
    simp only [movedHead] at hq ⊢ <;>
    simp only [adjacentCells, cellOffset, MATRIX_SIZE, decide_eq_true_eq] <;>
    omega

/-- The cells of a 64-cell grid after one of them has been overwritten. -/
theorem getD_set_cases (m : List Nat) (off v i : Nat) (hoff : off < m.length) :
    (m.set off v).getD i 0 = if i = off then v else m.getD i 0 := by
  split_ifs with h
  · rw [h]
    exact getD_set_same m off v hoff
  · exact getD_set_other m off i v (fun hc => h hc.symm)

/-- The aging pass keeps cells with consecutive values neighbours. -/
theorem contiguous_age (m : List Nat) (h : Contiguous m) : Contiguous (m.map ageCell) := by
  intro i j v hi hj hv h1 h2
  rw [getD_map_ageCell] at h1 h2
  have e1 : m.getD i 0 = v + 1 := by
    unfold ageCell at h1
    split_ifs at h1 <;> omega
  have e2 : m.getD j 0 = v + 1 + 1 := by
    unfold ageCell at h2
    split_ifs at h2 <;> omega
  exact h i j (v + 1) hi hj (by omega) e1 e2

/-- The growth pass keeps cells with consecutive values neighbours, below the top of the
byte range. -/
theorem contiguous_grow (m : List Nat) (hb : ∀ i : Nat, m.getD i 0 < 255)
    (h : Contiguous m) : Contiguous (m.map growCell) := by
  intro i j v hi hj hv h1 h2
  rw [getD_map_growCell] at h1 h2
  have bi := hb i
  have bj := hb j
  have e1 : m.getD i 0 + 1 = v ∧ 1 ≤ m.getD i 0 := by
    unfold growCell at h1
    split_ifs at h1 <;> omega
  have e2 : m.getD j 0 = v := by
    unfold growCell at h2
    split_ifs at h2 <;> omega
  exact h i j (m.getD i 0) hi hj e1.2 rfl (by omega)

/-- Stamping `snakeLength + 1` on a free cell next to the head keeps cells with consecutive
values neighbours. -/
theorem contiguous_stamp (g : Game) (hE : Encoded g) (hH : HeadOnTop g)
    (hC : Contiguous g.gameMatrix) (off : Nat) (hoff : off < 64)
    (hadj : adjacentCells (cellOffset g.snakeHead.x g.snakeHead.y) off = true) :
    Contiguous (g.gameMatrix.set off (g.snakeLength + 1)) := by
  have hlen : g.gameMatrix.length = 64 := hE.1
  obtain ⟨hx, hy, hcell⟩ := hH
  have hho : cellOffset g.snakeHead.x g.snakeHead.y < 64 := by
    unfold cellOffset; simp only [MATRIX_SIZE]; omega
  intro i j v hi hj hv h1 h2
  rw [getD_set_cases _ _ _ _ (by omega)] at h1 h2
  by_cases hjo : j = off
  · rw [if_pos hjo] at h2
    have hio : i ≠ off := by
      intro hc
      rw [if_pos hc] at h1
      omega
    rw [if_neg hio] at h1
    have hih : i = cellOffset g.snakeHead.x g.snakeHead.y :=
      encoded_inj g hE i _ hi hho (by rw [h1, hcell]; omega) (by omega)
    rw [hih, hjo]
    exact hadj
  · rw [if_neg hjo] at h2
    by_cases hio : i = off
    · rw [if_pos hio] at h1
      have := encoded_bound g hE j
      omega
    · rw [if_neg hio] at h1
      exact hC i j v hi hj hv h1 h2

/-- A movement tick onto a free cell inside the grid keeps the countdown encoding. -/
theorem updateSnakePosition_encoded_clear (oob tMove tEat : Nat) (g : Game) (hE : Encoded g)
    (hopen : moveGateOpen tMove g = true)
    (hin : outsideGrid (movedHead g.snakeDirection g.snakeHead) = false)
    (hfree : readMatrix oob g.gameMatrix (movedHead g.snakeDirection g.snakeHead).x
        (movedHead g.snakeDirection g.snakeHead).y = 0) :
    Encoded (updateSnakePosition oob tMove tEat g) := by
  obtain ⟨hlen0, hperm⟩ := hE
  have hlen : g.gameMatrix.length = 64 := hlen0
  have hxy := (outsideGrid_eq_false _).1 hin
  have hL : g.snakeLength ≤ 64 := by
    have h1 := hperm.length_eq
    rw [List.length_range'] at h1
    have h2 := List.length_filter_le nonzero g.gameMatrix
    rw [hlen] at h2
    omega
  have hoff : cellOffset (movedHead g.snakeDirection g.snakeHead).x
      (movedHead g.snakeDirection g.snakeHead).y < g.gameMatrix.length := by
    rw [hlen]; unfold cellOffset; simp only [MATRIX_SIZE]; omega
  have hfree' := hfree
  rw [readMatrix_inside oob _ _ _ hxy.1 hxy.2] at hfree'
  have hstamp : ((writeMatrix g.gameMatrix (movedHead g.snakeDirection g.snakeHead).x
      (movedHead g.snakeDirection g.snakeHead).y (g.snakeLength + 1)).filter nonzero).Perm
      (List.range' 1 (g.snakeLength + 1)) := by
    unfold writeMatrix
    rw [Nat.mod_eq_of_lt (by omega : g.snakeLength + 1 < 256)]
    refine (filter_set_perm (g.snakeLength + 1) (by omega) _ _ hoff hfree').trans ?_
    have hc : List.range' 1 (g.snakeLength + 1) =
        List.range' 1 g.snakeLength ++ [g.snakeLength + 1] := by
      rw [List.range'_concat, Nat.one_mul, Nat.add_comm 1]
    rw [hc]
    exact ((List.perm_append_singleton _ _).trans (List.Perm.cons _ hperm.symm)).symm
  have hwlen : (writeMatrix g.gameMatrix (movedHead g.snakeDirection g.snakeHead).x
      (movedHead g.snakeDirection g.snakeHead).y (g.snakeLength + 1)).length = 64 := by
    unfold writeMatrix
    rw [List.length_set, hlen]
  rcases updateSnakePosition_free oob tMove tEat g hopen hin hfree with ⟨hm, hl⟩ | ⟨hm, hl⟩
  · refine ⟨by show _ = 64; rw [hm, List.length_map, List.length_map, hwlen], ?_⟩
    rw [hm, hl, Nat.mod_eq_of_lt (by omega : g.snakeLength + 1 < 256)]
    have h1 := filter_map_perm growCell (by simp [growCell]) _ _ hstamp
    rw [map_growCell_range' 1 _ (by omega) (by omega),
      filter_nonzero_range' 2 _ (by omega)] at h1
    have h2 := filter_map_perm ageCell (by simp [ageCell]) _ _ h1
    rw [map_ageCell_range', filter_nonzero_range' 1 _ (by omega)] at h2
    exact h2
  · refine ⟨by show _ = 64; rw [hm, List.length_map, hwlen], ?_⟩
    rw [hm, hl]
    have h2 := filter_map_perm ageCell (by simp [ageCell]) _ _ hstamp
    rw [map_ageCell_range', filter_nonzero_range'_zero] at h2
    exact h2

/-- A movement tick onto a free cell inside the grid keeps the head cell at `snakeLength`
and cells with consecutive values neighbours. -/
theorem updateSnakePosition_body (oob tMove tEat : Nat) (g : Game) (hE : Encoded g)
    (hH : HeadOnTop g) (hC : Contiguous g.gameMatrix)
    (hopen : moveGateOpen tMove g = true)
    (hin : outsideGrid (movedHead g.snakeDirection g.snakeHead) = false)
    (hfree : readMatrix oob g.gameMatrix (movedHead g.snakeDirection g.snakeHead).x
        (movedHead g.snakeDirection g.snakeHead).y = 0) :
    HeadOnTop (updateSnakePosition oob tMove tEat g) ∧
      Contiguous (updateSnakePosition oob tMove tEat g).gameMatrix := by
  have hlen : g.gameMatrix.length = 64 := hE.1
  have hxy := (outsideGrid_eq_false _).1 hin
  have hL : g.snakeLength ≤ 64 := by
    have h1 := hE.2.length_eq
    rw [List.length_range'] at h1
    have h2 := List.length_filter_le nonzero g.gameMatrix
    rw [hlen] at h2
    omega
  have hoff : cellOffset (movedHead g.snakeDirection g.snakeHead).x
      (movedHead g.snakeDirection g.snakeHead).y < 64 := by
    unfold cellOffset; simp only [MATRIX_SIZE]; omega
  have hw : writeMatrix g.gameMatrix (movedHead g.snakeDirection g.snakeHead).x
      (movedHead g.snakeDirection g.snakeHead).y (g.snakeLength + 1) =
      g.gameMatrix.set (cellOffset (movedHead g.snakeDirection g.snakeHead).x
        (movedHead g.snakeDirection g.snakeHead).y) (g.snakeLength + 1) := by
    unfold writeMatrix
    rw [Nat.mod_eq_of_lt (by omega : g.snakeLength + 1 < 256)]
  have hadj := adjacent_movedHead g.snakeDirection g.snakeHead hH.1 hH.2.1 hin
  have hC1 := contiguous_stamp g hE hH hC _ hoff hadj
  have hb1 : ∀ i : Nat, (g.gameMatrix.set (cellOffset (movedHead g.snakeDirection g.snakeHead).x
      (movedHead g.snakeDirection g.snakeHead).y) (g.snakeLength + 1)).getD i 0 < 255 := by
    intro i
    rw [getD_set_cases _ _ _ _ (by omega)]
    have := encoded_bound g hE i
    split_ifs <;> omega
  have hhead := updateSnakePosition_head oob tMove tEat g hopen
  have hstampcell : (g.gameMatrix.set (cellOffset (movedHead g.snakeDirection g.snakeHead).x
      (movedHead g.snakeDirection g.snakeHead).y) (g.snakeLength + 1)).getD
      (cellOffset (movedHead g.snakeDirection g.snakeHead).x
        (movedHead g.snakeDirection g.snakeHead).y) 0 = g.snakeLength + 1 :=
    getD_set_same _ _ _ (by omega)
  rcases updateSnakePosition_free oob tMove tEat g hopen hin hfree with ⟨hm, hl⟩ | ⟨hm, hl⟩
  · rw [hw] at hm
    refine ⟨⟨by rw [hhead]; exact hxy.1, by rw [hhead]; exact hxy.2, ?_⟩, ?_⟩
    · have hgrow : growCell (g.snakeLength + 1) = g.snakeLength + 2 := by
        unfold growCell
        rw [if_pos (by omega)]
        exact Nat.mod_eq_of_lt (by omega)
      have hv : ageCell (growCell (g.snakeLength + 1)) = g.snakeLength + 1 := by
        rw [hgrow]
        unfold ageCell
        rw [if_pos (by omega)]
        omega
      rw [hhead, hm, getD_map_ageCell, getD_map_growCell, hstampcell, hv, hl]
      exact (Nat.mod_eq_of_lt (by omega)).symm
    · rw [hm]
      exact contiguous_age _ (contiguous_grow _ hb1 hC1)
  · rw [hw] at hm
    refine ⟨⟨by rw [hhead]; exact hxy.1, by rw [hhead]; exact hxy.2, ?_⟩, ?_⟩
    · have hv : ageCell (g.snakeLength + 1) = g.snakeLength := by
        unfold ageCell
        rw [if_pos (by omega)]
        omega
      rw [hhead, hm, getD_map_ageCell, hstampcell, hv, hl]
    · rw [hm]
      exact contiguous_age _ hC1

theorem initGame_body (difficulty now : Nat) (g : Game) :
    HeadOnTop (initGame difficulty now g) ∧ Contiguous (initGame difficulty now g).gameMatrix := by
  have hm : (initGame difficulty now g).gameMatrix = (initGame 0 0 bootGame).gameMatrix := rfl
  have hc : ∀ i : Nat, i < 64 → ∀ j : Nat, j < 64 →
      (initGame 0 0 bootGame).gameMatrix.getD i 0 ≠ 0 →
      (initGame 0 0 bootGame).gameMatrix.getD j 0 =
        (initGame 0 0 bootGame).gameMatrix.getD i 0 + 1 → adjacentCells i j = true := by
    decide
  have h58 : (5 : Nat) < 8 := by decide
  have h28 : (2 : Nat) < 8 := by decide
  refine ⟨⟨h58, h28, rfl⟩, ?_⟩
  rw [hm]
  intro i j v hi hj hv h1 h2
  exact hc i hi j hj (by omega) (by omega)

/-- Along movement ticks that keep the head inside the grid and meet no self-collision, the
grid carries the countdown encoding, the head cell holds `snakeLength` and cells with
consecutive values are neighbours. -/
theorem reachedClear_body (g : Game) (hr : ReachedClear g) :
    Encoded g ∧ HeadOnTop g ∧ Contiguous g.gameMatrix := by
  induction hr with
  | init difficulty now g =>
    exact ⟨initGame_encoded difficulty now g, initGame_body difficulty now g⟩
  | tick g dir food oob tMove tEat _ hopen hin hfree ih =>
    obtain ⟨hE, hH, hC⟩ := ih
    exact ⟨updateSnakePosition_encoded_clear oob tMove tEat (latched dir food g) hE hopen hin hfree,
      updateSnakePosition_body oob tMove tEat (latched dir food g) hE hH hC hopen hin hfree⟩

/-- One movement tick to the right from the state of `initGame` is a tick with the head
inside the grid and no self-collision. -/
theorem reachedClear_tickRight :
    ReachedClear (tickRight 400 (initGame 4 0 bootGame)) :=
  ReachedClear.tick (initGame 4 0 bootGame) Direction.RIGHT
    ⟨ASKING_FOR_NEW_FOOD_VALUE, ASKING_FOR_NEW_FOOD_VALUE⟩ 0 400 400
    (ReachedClear.init 4 0 bootGame) (by decide) (by decide) (by decide)

/-! ## The body of the snake in the grid: claims -/

/-- C25. Body encoding: in every state reached from `initGame` by movement ticks in which
the head stays inside the grid and no self-collision occurs, the nonzero cells of the
64-cell grid hold exactly the values `1, 2, ..., snakeLength`, each in exactly one cell, and
the head cell holds `snakeLength`, the highest value (so the segment `i` places behind the
head is the one cell holding `snakeLength - i`). -/
theorem body_encoding (g : Game) (hr : ReachedClear g) :
    g.gameMatrix.length = 64 ∧
    (g.gameMatrix.filter nonzero).Perm (List.range' 1 g.snakeLength) ∧
    (∀ i : Nat, i < 64 → g.gameMatrix.getD i 0 ≤ g.snakeLength) ∧
    (∀ v : Nat, 1 ≤ v → v ≤ g.snakeLength →
      ∃ i : Nat, i < 64 ∧ g.gameMatrix.getD i 0 = v ∧
        ∀ j : Nat, j < 64 → g.gameMatrix.getD j 0 = v → j = i) ∧
    (g.snakeHead.x < 8 ∧ g.snakeHead.y < 8 ∧
      g.gameMatrix.getD (cellOffset g.snakeHead.x g.snakeHead.y) 0 = g.snakeLength) ∧
    (∀ s : Nat, s < g.snakeLength →
      ∃ i : Nat, i < 64 ∧ g.gameMatrix.getD i 0 = g.snakeLength - s ∧
        ∀ j : Nat, j < 64 → g.gameMatrix.getD j 0 = g.snakeLength - s → j = i) ∧
    occupancy g.gameMatrix = g.snakeLength := by
  obtain ⟨hE, hH, _⟩ := reachedClear_body g hr
  have huniq : ∀ v : Nat, 1 ≤ v → v ≤ g.snakeLength →
      ∃ i : Nat, i < 64 ∧ g.gameMatrix.getD i 0 = v ∧
        ∀ j : Nat, j < 64 → g.gameMatrix.getD j 0 = v → j = i := by
    intro v h1 hv
    obtain ⟨i, hi, hiv⟩ := encoded_surj g hE v h1 hv
    refine ⟨i, hi, hiv, ?_⟩
    intro j hj hjv
    exact encoded_inj g hE j i hj hi (by rw [hjv, hiv]) (by omega)
  refine ⟨hE.1, hE.2, fun i _ => encoded_bound g hE i, huniq, hH, ?_, encoded_occupancy g hE⟩
  intro s hs
  exact huniq (g.snakeLength - s) (by omega) (by omega)

/-- Witness of C25: the state after `initGame` and one movement tick to the right. -/
theorem body_encoding_witness :
    (tickRight 400 (initGame 4 0 bootGame)).gameMatrix.getD
        (cellOffset (tickRight 400 (initGame 4 0 bootGame)).snakeHead.x
          (tickRight 400 (initGame 4 0 bootGame)).snakeHead.y) 0 =
      (tickRight 400 (initGame 4 0 bootGame)).snakeLength :=
  (body_encoding (tickRight 400 (initGame 4 0 bootGame)) reachedClear_tickRight).2.2.2.2.1.2.2

/-- C29. Body contiguity: in every state reached from `initGame` by movement ticks in which
the head stays inside the grid and no self-collision occurs, for every `k` with
`1 ≤ k < snakeLength` there is exactly one cell holding `k` and exactly one holding `k + 1`,
and the two are orthogonal neighbours. -/
theorem body_contiguity (g : Game) (hr : ReachedClear g) (k : Nat) (h1 : 1 ≤ k)
    (hk : k < g.snakeLength) :
    ∃ i j : Nat, i < 64 ∧ j < 64 ∧ g.gameMatrix.getD i 0 = k ∧ g.gameMatrix.getD j 0 = k + 1 ∧
      adjacentCells i j = true ∧
      ∀ i' j' : Nat, i' < 64 → j' < 64 → g.gameMatrix.getD i' 0 = k →
        g.gameMatrix.getD j' 0 = k + 1 → i' = i ∧ j' = j := by
  obtain ⟨hE, _, hC⟩ := reachedClear_body g hr
  obtain ⟨i, hi, hiv⟩ := encoded_surj g hE k h1 (by omega)
  obtain ⟨j, hj, hjv⟩ := encoded_surj g hE (k + 1) (by omega) (by omega)
  refine ⟨i, j, hi, hj, hiv, hjv, hC i j k hi hj h1 hiv hjv, ?_⟩
  intro i' j' hi' hj' hiv' hjv'
  exact ⟨encoded_inj g hE i' i hi' hi (by rw [hiv', hiv]) (by omega),
    encoded_inj g hE j' j hj' hj (by rw [hjv', hjv]) (by omega)⟩

/-- Witness of C29: after `initGame` and one movement tick to the right the cells holding 2
and 3 are neighbours. -/
theorem body_contiguity_witness :
    ∃ i j : Nat, i < 64 ∧ j < 64 ∧
      (tickRight 400 (initGame 4 0 bootGame)).gameMatrix.getD i 0 = 2 ∧
      (tickRight 400 (initGame 4 0 bootGame)).gameMatrix.getD j 0 = 2 + 1 ∧
      adjacentCells i j = true ∧
      ∀ i' j' : Nat, i' < 64 → j' < 64 →
        (tickRight 400 (initGame 4 0 bootGame)).gameMatrix.getD i' 0 = 2 →
        (tickRight 400 (initGame 4 0 bootGame)).gameMatrix.getD j' 0 = 2 + 1 →
        i' = i ∧ j' = j :=
  body_contiguity (tickRight 400 (initGame 4 0 bootGame)) reachedClear_tickRight 2 (by decide)
    (by decide)

/-! ## The movement step inside `play()`: auxiliary facts -/

/-- A call of `play()` on a running game is `updateSnakePosition` applied to the game object
of `movementInput`. -/
theorem play_eq_movementInput (difficulty : Nat) (inp : TickInput) (g : Game)
    (he : g.hasGameEnded = false) :
    play difficulty inp g =
      (movementInput difficulty inp g).map fun g6 =>
        { game := updateSnakePosition inp.oob inp.tMove inp.tEat g6
          running := true
          savedScore := none
          moved := if moveGateOpen inp.tMove g6 then some g6.snakeDirection else none } := by
  simp only [play, movementInput, he, Bool.false_eq_true, if_false]
  split <;> rfl

/-- Inside `updateSnakeHeadPosition` the collision check runs on the game object whose head
is at `selfCheckIndices`, and reads the grid there. -/
theorem updateSnakeHeadPosition_check (oob : Nat) (g : Game) :
    (updateSnakeHeadPosition oob g).hasGameEnded =
        (checkSnakeAteHimself oob { g with snakeHead := selfCheckIndices g }).hasGameEnded ∧
      (checkSnakeAteHimself oob { g with snakeHead := selfCheckIndices g }).hasGameEnded =
        (if readMatrix oob g.gameMatrix (selfCheckIndices g).x (selfCheckIndices g).y > 0 then true
          else g.hasGameEnded) := by
  simp only [updateSnakeHeadPosition, checkSnakeAteHimself, selfCheckIndices]
  split_ifs <;> exact ⟨rfl, rfl⟩

end Snake
